import Mathlib

/-!
Shallow embedding of the watch-history tracker backend (`src/backend/main.py`)
and verification of its specification claims.

The database session is embedded as explicit state: a user's watch-history rows
are a `List WatchHistory`, like rows a `List LikeRow`, and so on.  Nullable
columns become `Option`; Python integers become `Int` (or `Nat` where the code
only ever stores non-negative identifiers); TMDB vote averages, which are
floating-point in the JSON payloads, are idealised as exact rationals `ℚ`.
-/

/-- A row of the `history` table (class `WatchHistory`, main.py:274-315),
restricted to the columns the verified operations read or write.  `genres`
holds the JSON-decoded list of genre names; `none` models a NULL, empty or
unparseable value, which the code skips via `if h.genres` / `try ... except`. -/
structure WatchHistory where
  id : Nat
  tmdb_id : Nat
  title : String
  media_type : Option String
  status : String
  rating : Option Int
  view_count : Option Int
  rewatch_dates : List String
  genres : Option (List String)
  user_id : Nat
  deriving Repr, DecidableEq

/-- A row of the `users` table (class `User`), restricted to the gamification
columns used by the verified operations. -/
structure User where
  id : Nat
  xp : Int
  level : Int
  deriving Repr, DecidableEq

/-- Python truthiness default `(v or 1)` on a nullable integer column:
both `None` and `0` are falsy and give the default `1`. -/
def pyOrOne : Option Int → Int
  | none => 1
  | some v => if v = 0 then 1 else v

/-- Python condition `item.rating and item.rating > 0` on a nullable integer:
`None` and `0` are falsy, so the condition holds exactly when the rating is a
present positive value. -/
def ratingPositive : Option Int → Bool
  | none => false
  | some r => decide (0 < r)

/-- Embeds `calculate_level` (main.py:1054-1058).  The source computes
`math.floor(math.sqrt(xp) / 20) + 1`; since `⌊√x / 20⌋ = ⌊⌊√x⌋ / 20⌋` for
non-negative `x`, the float square root is embedded as `Nat.sqrt`. -/
def calculate_level (xp : Int) : Int :=
  if xp < 0 then 1 else (Nat.sqrt xp.toNat) / 20 + 1

/-- One iteration of the `for item in history` loop of `recalculate_xp`
(main.py:1088-1106), threading the `total_xp` accumulator: watched rows gain
5 base XP, a type bonus (100 movie / 25 otherwise), a rewatch bonus of
`(view_count - 1) * 10` when `(view_count or 1) > 1`, and 50 for a positive
rating. -/
def recalcStep (total_xp : Int) (item : WatchHistory) : Int :=
  if item.status = "watched" then
    let xp1 := total_xp + 5
    let xp2 := xp1 + (if item.media_type = some "movie" then 100 else 25)
    let xp3 := if 1 < pyOrOne item.view_count then
        xp2 + (item.view_count.getD 1 - 1) * 10
      else xp2
    if ratingPositive item.rating then xp3 + 50 else xp3
  else total_xp

/-- The `total_xp` computed by the loop of `recalculate_xp` over the user's
history rows. -/
def recalcTotalXp (history : List WatchHistory) : Int :=
  history.foldl recalcStep 0

/-- Embeds `recalculate_xp` (main.py:1079-1118): recomputes the user's XP from
scratch from the user's history rows and recomputes the level from the new XP
(the level-up comparison in the source only guards a `pass`). -/
def recalculate_xp (user : User) (history : List WatchHistory) : User :=
  let total := recalcTotalXp history
  { user with xp := total, level := calculate_level total }

/-- The per-row XP contribution exactly as claim C1 words it: each watched row
contributes 5 base XP, plus 100 if its media_type is movie and 25 otherwise,
plus 10 per rewatch (view_count minus one, when view_count exceeds one), plus
50 if its rating is greater than zero; other rows contribute nothing. -/
def claimRowXp (item : WatchHistory) : Int :=
  if item.status = "watched" then
    5 + (if item.media_type = some "movie" then 100 else 25)
      + (match item.view_count with
         | some v => if 1 < v then (v - 1) * 10 else 0
         | none => 0)
      + (match item.rating with
         | some r => if 0 < r then 50 else 0
         | none => 0)
  else 0

theorem recalcStep_eq_add (t : Int) (item : WatchHistory) :
    recalcStep t item = t + claimRowXp item := by
  unfold recalcStep claimRowXp
  by_cases hs : item.status = "watched"
  · simp only [hs, if_true]
    rcases hv : item.view_count with _ | v <;> rcases hr : item.rating with _ | r <;>
      simp only [pyOrOne, ratingPositive, Option.getD, decide_eq_true_eq] <;>
      split_ifs <;> first | contradiction | omega
  · simp [hs]

theorem recalcTotalXp_foldl (t : Int) (history : List WatchHistory) :
    history.foldl recalcStep t = t + (history.map claimRowXp).sum := by
  induction history generalizing t with
  | nil => simp
  | cons h l ih => simp [List.foldl_cons, recalcStep_eq_add, ih, add_assoc]

theorem recalcTotalXp_eq (history : List WatchHistory) :
    recalcTotalXp history = (history.map claimRowXp).sum := by
  simpa using recalcTotalXp_foldl 0 history

/-- C1: `recalculate_xp` sets the user's XP to a value computed solely from the
user's watch-history rows — the sum of the per-row contributions (5 base XP per
watched row, 100 for a movie and 25 otherwise, 10 per rewatch beyond the first
view when view_count exceeds one, 50 for a positive rating) — and sets the
level to `floor(sqrt(XP)/20) + 1` (level 1 for negative XP, per
`calculate_level`); any two evaluations over the same history rows agree on XP
and level, independently of the user record's previous XP and level. -/
theorem recalculate_xp_correct (u₁ u₂ : User) (history : List WatchHistory) :
    (recalculate_xp u₁ history).xp = (history.map claimRowXp).sum ∧
    (recalculate_xp u₁ history).level =
      calculate_level ((history.map claimRowXp).sum) ∧
    (recalculate_xp u₁ history).xp = (recalculate_xp u₂ history).xp ∧
    (recalculate_xp u₁ history).level = (recalculate_xp u₂ history).level := by
  refine ⟨?_, ?_, ?_, ?_⟩ <;> simp [recalculate_xp, recalcTotalXp_eq]

/-- Insert an element into a list sorted in descending `key` order, before the
first element of smaller-or-equal key: one step of a stable descending
insertion sort, the embedding of Python's stable `sort(..., reverse=True)`. -/
def insertDescBy {α β : Type} (key : α → β) [LinearOrder β] (x : α) :
    List α → List α
  | [] => [x]
  | y :: ys => if key y ≤ key x then x :: y :: ys else y :: insertDescBy key x ys

/-- Stable insertion sort in descending `key` order. -/
def sortDescBy {α β : Type} (key : α → β) [LinearOrder β] : List α → List α
  | [] => []
  | x :: xs => insertDescBy key x (sortDescBy key xs)

theorem perm_insertDescBy {α β : Type} (key : α → β) [LinearOrder β]
    (x : α) (l : List α) : (insertDescBy key x l).Perm (x :: l) := by
  induction l with
  | nil => rfl
  | cons y ys ih =>
    unfold insertDescBy
    split_ifs
    · rfl
    · exact ((ih.cons y).trans (List.Perm.swap x y ys))

theorem perm_sortDescBy {α β : Type} (key : α → β) [LinearOrder β]
    (l : List α) : (sortDescBy key l).Perm l := by
  induction l with
  | nil => rfl
  | cons x xs ih => exact (perm_insertDescBy key x (sortDescBy key xs)).trans (ih.cons x)

theorem pairwise_insertDescBy {α β : Type} (key : α → β) [LinearOrder β]
    (x : α) (l : List α) (hl : l.Pairwise (fun a b => key b ≤ key a)) :
    (insertDescBy key x l).Pairwise (fun a b => key b ≤ key a) := by
  induction l with
  | nil => simp [insertDescBy]
  | cons y ys ih =>
    unfold insertDescBy
    rcases List.pairwise_cons.mp hl with ⟨hy, hys⟩
    split_ifs with hxy
    · refine List.pairwise_cons.mpr ⟨?_, hl⟩
      intro b hb
      rcases List.mem_cons.mp hb with rfl | hb
      · exact hxy
      · exact (hy b hb).trans hxy
    · refine List.pairwise_cons.mpr ⟨?_, ih hys⟩
      intro b hb
      rcases List.mem_cons.mp ((perm_insertDescBy key x ys).mem_iff.mp hb) with h | h
      · subst h; exact le_of_not_le hxy
      · exact hy b h

theorem pairwise_sortDescBy {α β : Type} (key : α → β) [LinearOrder β]
    (l : List α) : (sortDescBy key l).Pairwise (fun a b => key b ≤ key a) := by
  induction l with
  | nil => simp [sortDescBy]
  | cons x xs ih => exact pairwise_insertDescBy key x _ ih

/-- First-occurrence order of the distinct elements of a list: the iteration
order of a Python `collections.Counter` built from the list. -/
def firstOccurrences (l : List String) : List String :=
  l.foldl (fun acc x => if x ∈ acc then acc else acc ++ [x]) []

/-- Embeds `Counter(genres).most_common(5)` (main.py:196-198): the five genre
names of greatest multiplicity, ties resolved by first occurrence (CPython's
`most_common` is a stable descending sort of the counter entries, which are in
insertion order). -/
def mostCommon5 (l : List String) : List String :=
  ((sortDescBy (fun e => e.2)
      ((firstOccurrences l).map (fun x => (x, l.count x)))).take 5).map
    (fun e => e.1)

/-- The genre names contributed by a history (`genres_a.extend(...)` loop,
main.py:168-189): each row's decoded genre list in row order; rows whose
genres column is NULL, empty or unparseable contribute nothing. -/
def historyGenres (hist : List WatchHistory) : List String :=
  hist.foldl (fun acc h => acc ++ h.genres.getD []) []

/-- Embeds `calculate_compatibility` (main.py:159-204).  The two database
queries are embedded as the two users' history-row lists; the Python sets
`movies_a`, `movies_b`, `set(top_a)`, `set(top_b)` become finsets. -/
def calculate_compatibility (hist_a hist_b : List WatchHistory) : Nat :=
  if hist_a = [] ∨ hist_b = [] then 0
  else
    let movies_a := (hist_a.map (fun h => h.tmdb_id)).toFinset
    let movies_b := (hist_b.map (fun h => h.tmdb_id)).toFinset
    let shared_movies := (movies_a ∩ movies_b).card
    let top_a := mostCommon5 (historyGenres hist_a)
    let top_b := mostCommon5 (historyGenres hist_b)
    let shared_genres := (top_a.toFinset ∩ top_b.toFinset).card
    min 100 (shared_movies * 5 + shared_genres * 10)

/-- C4: `calculate_compatibility` returns `min(100, 5*S + 10*G)` where `S`
counts the tmdb_ids present in both histories and `G` the genres common to the
two top-5 most-frequent genre lists; it returns 0 when either history is
empty, and the result always lies between 0 and 100. -/
theorem calculate_compatibility_correct (hist_a hist_b : List WatchHistory) :
    (hist_a = [] ∨ hist_b = [] → calculate_compatibility hist_a hist_b = 0) ∧
    (hist_a ≠ [] → hist_b ≠ [] →
      calculate_compatibility hist_a hist_b =
        min 100
          (5 * ((hist_a.map (fun h => h.tmdb_id)).toFinset ∩
                (hist_b.map (fun h => h.tmdb_id)).toFinset).card +
           10 * ((mostCommon5 (historyGenres hist_a)).toFinset ∩
                 (mostCommon5 (historyGenres hist_b)).toFinset).card)) ∧
    0 ≤ calculate_compatibility hist_a hist_b ∧
    calculate_compatibility hist_a hist_b ≤ 100 := by
  refine ⟨fun h => by simp [calculate_compatibility, h], fun ha hb => ?_, Nat.zero_le _, ?_⟩
  · have h : ¬(hist_a = [] ∨ hist_b = []) := by tauto
    simp only [calculate_compatibility, h, if_false]
    ring_nf
  · unfold calculate_compatibility
    split_ifs with h
    · omega
    · exact Nat.min_le_left _ _

/-- Witness for C4 at concrete inputs: a shared movie and no shared genres
score 5; empty histories score 0. -/
theorem calculate_compatibility_correct_witness :
    calculate_compatibility [] [] = 0 ∧
    calculate_compatibility
        [⟨1, 42, "A", some "movie", "watched", none, some 1, [], some ["Action"], 1⟩]
        [⟨2, 42, "A", some "movie", "watched", none, some 1, [], some ["Drama"], 2⟩] =
      min 100 (5 * 1 + 10 * 0) :=
  ⟨(calculate_compatibility_correct [] []).1 (Or.inl rfl),
   by
    have h := (calculate_compatibility_correct
        [⟨1, 42, "A", some "movie", "watched", none, some 1, [], some ["Action"], 1⟩]
        [⟨2, 42, "A", some "movie", "watched", none, some 1, [], some ["Drama"], 2⟩]).2.1
        (by decide) (by decide)
    rw [h]
    decide⟩

/-- An entry of the `results` array of a TMDB multi-search response; multi
search results always carry a `media_type` discriminator. -/
structure SearchResult where
  id : Nat
  media_type : String
  deriving Repr, DecidableEq

/-- Embeds `search_tmdb_proxy` (main.py:1136-1154).  The upstream HTTP call is
embedded as its observed response: the status code and the decoded `results`
array of the body. -/
def search_tmdb_proxy (q : String) (status_code : Nat)
    (results : List SearchResult) : List SearchResult :=
  if q = "" then []
  else if status_code = 200 then
    results.filter (fun x => decide (x.media_type = "movie" ∨ x.media_type = "tv"))
  else []

/-- C7: the TMDB search proxy returns an empty list when the query is empty or
the upstream status is not 200; otherwise it returns exactly the upstream
results whose media_type is movie or tv, as a subsequence of the upstream
order. -/
theorem search_tmdb_proxy_correct (q : String) (status_code : Nat)
    (results : List SearchResult) :
    (q = "" → search_tmdb_proxy q status_code results = []) ∧
    (status_code ≠ 200 → search_tmdb_proxy q status_code results = []) ∧
    (q ≠ "" → status_code = 200 →
      (search_tmdb_proxy q status_code results).Sublist results ∧
      ∀ x ∈ results,
        (x ∈ search_tmdb_proxy q status_code results ↔
          (x.media_type = "movie" ∨ x.media_type = "tv"))) := by
  refine ⟨fun h => by simp [search_tmdb_proxy, h], fun h => ?_, fun hq hs => ?_⟩
  · unfold search_tmdb_proxy
    split_ifs <;> simp_all
  · have he : search_tmdb_proxy q status_code results =
        results.filter (fun x => decide (x.media_type = "movie" ∨ x.media_type = "tv")) := by
      unfold search_tmdb_proxy
      split_ifs <;> simp_all
    refine ⟨he ▸ List.filter_sublist _, fun x hx => ?_⟩
    rw [he, List.mem_filter]
    simp [hx]

/-- Witness for C7 at concrete inputs: empty query, upstream failure, and a
successful response with one person entry filtered out. -/
theorem search_tmdb_proxy_correct_witness :
    search_tmdb_proxy "" 200 [⟨1, "movie"⟩] = [] ∧
    search_tmdb_proxy "dune" 404 [⟨1, "movie"⟩] = [] ∧
    (search_tmdb_proxy "dune" 200 [⟨1, "movie"⟩, ⟨2, "person"⟩, ⟨3, "tv"⟩]).Sublist
      [⟨1, "movie"⟩, ⟨2, "person"⟩, ⟨3, "tv"⟩] :=
  ⟨(search_tmdb_proxy_correct "" 200 [⟨1, "movie"⟩]).1 rfl,
   (search_tmdb_proxy_correct "dune" 404 [⟨1, "movie"⟩]).2.1 (by decide),
   ((search_tmdb_proxy_correct "dune" 200
      [⟨1, "movie"⟩, ⟨2, "person"⟩, ⟨3, "tv"⟩]).2.2 (by decide) rfl).1⟩

/-- A relational schema as the SQLAlchemy inspector reports it: the tables
present in the database, each with its list of column names. -/
structure Schema where
  tables : List (String × List String)
  deriving Repr, DecidableEq

/-- Embeds `inspector.has_table(t)`. -/
def hasTable (s : Schema) (t : String) : Bool :=
  (s.tables.find? (fun e => e.1 == t)).isSome

/-- Embeds `[c['name'] for c in inspector.get_columns(t)]`. -/
def getColumns (s : Schema) (t : String) : List String :=
  ((s.tables.find? (fun e => e.1 == t)).map (fun e => e.2)).getD []

/-- The effect of `ALTER TABLE t ADD COLUMN c` on the schema. -/
def addColumn (s : Schema) (t c : String) : Schema :=
  ⟨s.tables.map (fun e => if e.1 = t then (e.1, e.2 ++ [c]) else e)⟩

/-- The (table, column) pairs `run_migrations` (main.py:321-436) checks, in
source order: the base and metadata history columns, the users columns, the
notifications column, the V2 history columns, and the playlist columns. -/
def migrationSteps : List (String × String) :=
  [("history", "total_episodes"), ("history", "rating"), ("history", "user_id"),
   ("history", "production_companies"), ("history", "cast"), ("history", "crew"),
   ("history", "keywords"), ("history", "production_countries"),
   ("users", "bio"), ("users", "city"), ("users", "country"), ("users", "xp"),
   ("users", "level"), ("users", "current_streak"), ("users", "last_active_date"),
   ("notifications", "ref_id"),
   ("history", "view_count"), ("history", "rewatch_dates"),
   ("history", "seasons_watched"), ("history", "episode_progress"),
   ("history", "watched_episodes"), ("history", "watch_providers"),
   ("playlist_items", "poster_path"), ("playlists", "collaborators")]

/-- One column check of `run_migrations`: when the inspector reports the table
present and the column absent, issue (record) the ALTER TABLE ADD COLUMN
statement and apply it to the schema; otherwise do nothing. -/
def migrationStep (acc : Schema × List (String × String)) (step : String × String) :
    Schema × List (String × String) :=
  if hasTable acc.1 step.1 ∧ step.2 ∉ getColumns acc.1 step.1 then
    (addColumn acc.1 step.1 step.2, acc.2 ++ [step])
  else acc

/-- Embeds `run_migrations` (main.py:321-436), returning the final schema and
the ALTER TABLE statements issued, in order.  The source reads each table's
column list once per block and no column is checked twice within a block, so
threading the schema through the checks is equivalent to the source's
snapshot reads. -/
def run_migrations (s : Schema) : Schema × List (String × String) :=
  migrationSteps.foldl migrationStep (s, [])

theorem find?_addColumn (s : Schema) (t c t' : String) :
    (addColumn s t c).tables.find? (fun e => e.1 == t') =
      (s.tables.find? (fun e => e.1 == t')).map
        (fun e => if e.1 = t then (e.1, e.2 ++ [c]) else e) := by
  unfold addColumn
  rw [List.find?_map]
  have hp : ((fun (e : String × List String) => e.1 == t') ∘
      (fun (e : String × List String) => if e.1 = t then (e.1, e.2 ++ [c]) else e)) =
      (fun (e : String × List String) => e.1 == t') := by
    funext e
    by_cases h : e.1 = t <;> simp [Function.comp, h]
  rw [hp]

theorem hasTable_addColumn (s : Schema) (t c t' : String) :
    hasTable (addColumn s t c) t' = hasTable s t' := by
  unfold hasTable
  rw [find?_addColumn]
  cases s.tables.find? (fun e => e.1 == t') <;> simp

theorem getColumns_addColumn_self (s : Schema) (t c : String)
    (h : hasTable s t = true) :
    getColumns (addColumn s t c) t = getColumns s t ++ [c] := by
  unfold getColumns
  rw [find?_addColumn]
  unfold hasTable at h
  rcases hf : s.tables.find? (fun e => e.1 == t) with _ | e
  · rw [hf] at h; simp at h
  · have he : e.1 = t := by simpa using List.find?_some hf
    simp [hf, he]

theorem getColumns_addColumn_mono (s : Schema) (t c t' x : String)
    (h : x ∈ getColumns s t') : x ∈ getColumns (addColumn s t c) t' := by
  unfold getColumns at h ⊢
  rw [find?_addColumn]
  rcases hf : s.tables.find? (fun e => e.1 == t') with _ | e
  · rw [hf] at h; simp at h
  · rw [hf] at h
    by_cases het : e.1 = t <;> simp_all

theorem migration_foldl_post (L : List (String × String)) (s : Schema)
    (log : List (String × String)) :
    (∀ t', hasTable (L.foldl migrationStep (s, log)).1 t' = hasTable s t') ∧
    (∀ t' x, x ∈ getColumns s t' →
      x ∈ getColumns (L.foldl migrationStep (s, log)).1 t') ∧
    (∀ p ∈ L, hasTable (L.foldl migrationStep (s, log)).1 p.1 = true →
      p.2 ∈ getColumns (L.foldl migrationStep (s, log)).1 p.1) := by
  induction L generalizing s log with
  | nil => simp
  | cons step rest ih =>
    simp only [List.foldl_cons, migrationStep]
    split_ifs with hg
    · obtain ⟨hT, _⟩ := hg
      rcases ih (addColumn s step.1 step.2) (log ++ [step]) with ⟨ih1, ih2, ih3⟩
      refine ⟨?_, ?_, ?_⟩
      · intro t'
        rw [ih1, hasTable_addColumn]
      · intro t' x hx
        exact ih2 t' x (getColumns_addColumn_mono _ _ _ _ _ hx)
      · intro p hp hpt
        rcases List.mem_cons.mp hp with rfl | hp
        · apply ih2
          rw [getColumns_addColumn_self _ _ _ hT]
          simp
        · exact ih3 p hp hpt
    · rcases ih s log with ⟨ih1, ih2, ih3⟩
      refine ⟨ih1, ih2, ?_⟩
      intro p hp hpt
      rcases List.mem_cons.mp hp with rfl | hp
      · have hT : hasTable s p.1 = true := (ih1 p.1) ▸ hpt
        have hmem : p.2 ∈ getColumns s p.1 := by
          by_contra hc
          exact hg ⟨hT, hc⟩
        exact ih2 _ _ hmem
      · exact ih3 p hp hpt

theorem migration_foldl_noop (L : List (String × String)) (s : Schema)
    (log : List (String × String))
    (h : ∀ p ∈ L, hasTable s p.1 = true → p.2 ∈ getColumns s p.1) :
    L.foldl migrationStep (s, log) = (s, log) := by
  induction L with
  | nil => rfl
  | cons step rest ih =>
    simp only [List.foldl_cons, migrationStep]
    split_ifs with hg
    · exact absurd (h step (List.mem_cons_self _ _) hg.1) hg.2
    · exact ih (fun p hp => h p (List.mem_cons_of_mem _ hp))

/-- C5: `run_migrations` is idempotent.  Each check issues its ALTER TABLE
ADD COLUMN statement only when the inspector reports that column absent (the
guard in `migrationStep`), so a second run on the schema left by a completed
first run issues no ALTER TABLE statements and leaves the schema unchanged. -/
theorem run_migrations_idempotent (s : Schema) :
    run_migrations (run_migrations s).1 = ((run_migrations s).1, []) := by
  unfold run_migrations
  apply migration_foldl_noop
  intro p hp hpt
  rcases migration_foldl_post migrationSteps s [] with ⟨_, _, h3⟩
  exact h3 p hp hpt

/-- Replace the first row satisfying `p` by its image under `f`: the embedding
of a SQLAlchemy `query.filter(...).first()` followed by attribute assignment
and commit. -/
def updateFirst {α : Type} (p : α → Bool) (f : α → α) : List α → List α
  | [] => []
  | h :: t => if p h then f h :: t else h :: updateFirst p f t

theorem find?_updateFirst {α : Type} (p : α → Bool) (f : α → α) (l : List α)
    (e : α) (hf : l.find? p = some e) (hp : p (f e) = true) :
    (updateFirst p f l).find? p = some (f e) := by
  induction l with
  | nil => simp at hf
  | cons h t ih =>
    unfold updateFirst
    by_cases hph : p h
    · rw [List.find?_cons_of_pos _ hph] at hf
      cases hf
      split_ifs
      exact List.find?_cons_of_pos _ hp
    · rw [List.find?_cons_of_neg _ hph] at hf
      split_ifs
      rw [List.find?_cons_of_neg _ hph]
      exact ih hf

theorem mem_updateFirst {α : Type} (p : α → Bool) (f : α → α) (l : List α)
    (r : α) (h : r ∈ updateFirst p f l) : r ∈ l ∨ ∃ x, x ∈ l ∧ r = f x := by
  induction l with
  | nil => simp [updateFirst] at h
  | cons a t ih =>
    unfold updateFirst at h
    split_ifs at h
    · rcases List.mem_cons.mp h with rfl | hr
      · exact Or.inr ⟨a, List.mem_cons_self _ _, rfl⟩
      · exact Or.inl (List.mem_cons_of_mem _ hr)
    · rcases List.mem_cons.mp h with rfl | hr
      · exact Or.inl (List.mem_cons_self _ _)
      · rcases ih hr with hl | ⟨x, hx, hfx⟩
        · exact Or.inl (List.mem_cons_of_mem _ hl)
        · exact Or.inr ⟨x, List.mem_cons_of_mem _ hx, hfx⟩

/-- A row of the likes table (class `Like`, main.py:244-249), restricted to
the columns `toggle_like` reads: the liking user and the liked history row. -/
structure LikeRow where
  user_id : Nat
  history_id : Nat
  deriving Repr, DecidableEq

/-- Embeds `toggle_like` (main.py:2837-2856) acting on the likes table.
`none` is the 404 case.  Deleting `existing` removes the one row `first()`
returned, i.e. the first matching row; the notification insert of the like
branch touches neither table modelled here. -/
def toggle_like (history_id : Nat) (current_user : Nat)
    (history : List WatchHistory) (likes : List LikeRow) :
    Option (List LikeRow × String) :=
  if (history.find? (fun h => h.id == history_id)).isNone then none
  else
    match likes.find? (fun l => l.user_id == current_user &&
        l.history_id == history_id) with
    | some _ =>
        some (likes.eraseP (fun l => l.user_id == current_user &&
          l.history_id == history_id), "unliked")
    | none => some (likes ++ [⟨current_user, history_id⟩], "liked")

theorem likeMatch_iff (u hid : Nat) (l : LikeRow) :
    (l.user_id == u && l.history_id == hid) = true ↔ l = LikeRow.mk u hid := by
  cases l
  simp [LikeRow.mk.injEq]

/-- Embeds `update_rating` (main.py:1467-1486) on the acting user's state:
the user row and the user's history rows (the query filters on tmdb_id and
user_id).  The handler raises 404 and 400 before any mutation, so the error
cases modify nothing; on success the first matching row's rating is set and
XP is resynced via `recalculate_xp` before the commit. -/
def update_rating (tmdb_id : Nat) (rating : Int) (user : User)
    (history : List WatchHistory) : Except Nat (User × List WatchHistory) :=
  if (history.find? (fun h => h.tmdb_id == tmdb_id)).isNone then .error 404
  else if rating < 0 ∨ 5 < rating then .error 400
  else
    let history' := updateFirst (fun h => h.tmdb_id == tmdb_id)
      (fun h => { h with rating := some rating }) history
    .ok (recalculate_xp user history', history')

/-- The user and history state after a call to the rating endpoint: an
HTTPException raised by the handler aborts the request before any commit,
leaving the database as it was. -/
def update_rating_state (tmdb_id : Nat) (rating : Int) (user : User)
    (history : List WatchHistory) : User × List WatchHistory :=
  match update_rating tmdb_id rating user history with
  | .error _ => (user, history)
  | .ok s => s

/-- Embeds `rewatch_item` (main.py:2946-2968); `now` is the ambient
`datetime.utcnow().isoformat()` timestamp.  `none` covers both the
"Item not in history" error payload and the TypeError a NULL view_count
would raise from `item.view_count += 1`; both paths commit nothing.  On
success the matched row's view_count is incremented, the timestamp appended
to rewatch_dates, and a flat 50 XP added to the user — `recalculate_xp`
is not called. -/
def rewatch_item (tmdb_id : Nat) (now : String) (user : User)
    (history : List WatchHistory) : Option (User × List WatchHistory × Int) :=
  match history.find? (fun h => h.tmdb_id == tmdb_id) with
  | none => none
  | some item =>
    match item.view_count with
    | none => none
    | some v =>
        let item' := { item with
          view_count := some (v + 1),
          rewatch_dates := item.rewatch_dates ++ [now] }
        some ({ user with xp := user.xp + 50 },
          updateFirst (fun h => h.tmdb_id == tmdb_id) (fun _ => item') history,
          v + 1)

/-- Embeds `block_item` (main.py:2970-2988): sets an existing row's status to
blocked, or inserts a placeholder row with title "Blocked Item", status
blocked and media_type unknown.  `new_id` is the database-assigned key of the
inserted row; rating 0, view_count 1 and empty rewatch_dates are the column
defaults of the model. -/
def block_item (tmdb_id : Nat) (current_user : Nat) (new_id : Nat)
    (history : List WatchHistory) : List WatchHistory :=
  if (history.find? (fun h => h.tmdb_id == tmdb_id)).isSome then
    updateFirst (fun h => h.tmdb_id == tmdb_id)
      (fun h => { h with status := "blocked" }) history
  else
    history ++ [{ id := new_id, tmdb_id := tmdb_id, title := "Blocked Item",
                  media_type := some "unknown", status := "blocked",
                  rating := some 0, view_count := some 1, rewatch_dates := [],
                  genres := none, user_id := current_user }]

/-- Embeds `update_status` (main.py:1394-1425) on the modelled columns: 404
when the user has no row with the tmdb_id, otherwise the first matching row's
status becomes the request's status and XP is resynced via `recalculate_xp`
(the watched_at timestamp bookkeeping concerns a column outside the modelled
row, and `update_streak` only touches streak columns). -/
def update_status (tmdb_id : Nat) (new_status : String) (user : User)
    (history : List WatchHistory) : Except Nat (User × List WatchHistory) :=
  if (history.find? (fun h => h.tmdb_id == tmdb_id)).isNone then .error 404
  else
    let history' := updateFirst (fun h => h.tmdb_id == tmdb_id)
      (fun h => { h with status := new_status }) history
    .ok (recalculate_xp user history', history')

/-- C8: for an existing history item, in a likes table holding at most one
like row per (user, item) pair — the invariant the toggle itself maintains —
`toggle_like` toggles the user's like: a single call adds the like exactly
when it was absent (status liked) and removes it exactly when it was present
(status unliked), preserves the at-most-one invariant, and two successive
calls by the same user return the likes table to the same rows (up to row
order). -/
theorem toggle_like_correct (history_id current_user : Nat)
    (history : List WatchHistory) (likes : List LikeRow)
    (hitem : (history.find? (fun h => h.id == history_id)).isSome = true)
    (hinv : likes.countP (fun l => l.user_id == current_user &&
      l.history_id == history_id) ≤ 1) :
    ∃ likes₁ s₁,
      toggle_like history_id current_user history likes = some (likes₁, s₁) ∧
      (s₁ = "liked" ↔ LikeRow.mk current_user history_id ∉ likes) ∧
      (s₁ = "unliked" ↔ LikeRow.mk current_user history_id ∈ likes) ∧
      (LikeRow.mk current_user history_id ∈ likes₁ ↔
        LikeRow.mk current_user history_id ∉ likes) ∧
      likes₁.countP (fun l => l.user_id == current_user &&
        l.history_id == history_id) ≤ 1 ∧
      ∃ likes₂ s₂,
        toggle_like history_id current_user history likes₁ = some (likes₂, s₂) ∧
        likes₂.Perm likes := by
  rcases Option.isSome_iff_exists.mp hitem with ⟨e0, he0⟩
  set p : LikeRow → Bool :=
    fun l => l.user_id == current_user && l.history_id == history_id with hp
  set x : LikeRow := LikeRow.mk current_user history_id with hx
  have hpx : p x = true := (likeMatch_iff current_user history_id x).mpr rfl
  by_cases hmem : x ∈ likes
  · obtain ⟨a, l₁, l₂, hl₁, hpa, hlikes, herase⟩ := List.exists_of_eraseP hmem hpx
    have ha : a = x := (likeMatch_iff current_user history_id a).mp hpa
    have hc₁ : likes.countP p = l₂.countP p + 1 := by
      rw [hlikes, List.countP_append, List.countP_cons_of_pos p l₂ hpa,
        List.countP_eq_zero.mpr hl₁]
      omega
    have hc₂ : l₂.countP p = 0 := by omega
    have hxl₂ : x ∉ l₂ := fun hx₂ =>
      (List.countP_eq_zero.mp hc₂ x hx₂) hpx
    have hxl₁ : x ∉ l₁ := fun hx₁ => (hl₁ x hx₁) hpx
    have hfind : (likes.find? p).isSome = true :=
      List.find?_isSome.mpr ⟨x, hmem, hpx⟩
    rcases hfs : likes.find? p with _ | e
    · rw [hfs] at hfind; simp at hfind
    refine ⟨likes.eraseP p, "unliked", ?_, ?_, ?_, ?_, ?_, ?_⟩
    · simp only [toggle_like, he0, Option.isNone_some, Bool.false_eq_true,
        if_false, hfs]
    · constructor
      · intro h; exact absurd h (by decide)
      · intro h; exact absurd hmem h
    · simp [hmem]
    · rw [herase]
      constructor
      · intro h
        rcases List.mem_append.mp h with h | h
        · exact absurd h hxl₁
        · exact absurd h hxl₂
      · intro h; exact absurd hmem h
    · rw [herase, List.countP_append, List.countP_eq_zero.mpr hl₁, hc₂]
      omega
    · have hfnone : (likes.eraseP p).find? p = none := by
        rw [herase]
        refine List.find?_eq_none.mpr ?_
        intro l hl
        rcases List.mem_append.mp hl with h | h
        · exact hl₁ l h
        · exact List.countP_eq_zero.mp hc₂ l h
      refine ⟨likes.eraseP p ++ [x], "liked", ?_, ?_⟩
      · simp only [toggle_like, he0, Option.isNone_some, Bool.false_eq_true,
          if_false, hfnone]
      · rw [herase, hlikes, ha]
        exact (List.perm_append_singleton x (l₁ ++ l₂)).trans List.perm_middle.symm
  · have hnotp : ∀ l ∈ likes, ¬p l = true := by
      intro l hl hpl
      have hlx : l = x := by
        rw [hx]; exact (likeMatch_iff current_user history_id l).mp hpl
      exact hmem (hlx ▸ hl)
    have hfnone : likes.find? p = none := List.find?_eq_none.mpr hnotp
    have hc0 : likes.countP p = 0 := List.countP_eq_zero.mpr hnotp
    refine ⟨likes ++ [x], "liked", ?_, ?_, ?_, ?_, ?_, ?_⟩
    · simp only [toggle_like, he0, Option.isNone_some, Bool.false_eq_true,
        if_false, hfnone]
    · simp [hmem]
    · constructor
      · intro h; exact absurd h (by decide)
      · intro h; exact absurd h hmem
    · simp [hmem]
    · rw [List.countP_append, hc0, List.countP_cons_of_pos p [] hpx]
      simp
    · have hfind : ((likes ++ [x]).find? p).isSome = true :=
        List.find?_isSome.mpr ⟨x, by simp, hpx⟩
      rcases hfs : (likes ++ [x]).find? p with _ | e
      · rw [hfs] at hfind; simp at hfind
      refine ⟨(likes ++ [x]).eraseP p, "unliked", ?_, ?_⟩
      · simp only [toggle_like, he0, Option.isNone_some, Bool.false_eq_true,
          if_false, hfs]
      · rw [List.eraseP_append_right [x] hnotp, List.eraseP_cons_of_pos hpx]
        simp

/-- Witness for C8 at a concrete state: history item 1 exists, the likes
table is empty, and one toggle adds the like. -/
theorem toggle_like_correct_witness :
    ∃ likes₁ s₁,
      toggle_like 1 2
          [⟨1, 5, "T", some "movie", "watched", none, some 1, [], none, 1⟩] [] =
        some (likes₁, s₁) ∧
      (LikeRow.mk 2 1 ∈ likes₁ ↔ LikeRow.mk 2 1 ∉ ([] : List LikeRow)) := by
  obtain ⟨l₁, s₁, h1, _, _, h4, _, _⟩ :=
    toggle_like_correct 1 2
      [⟨1, 5, "T", some "movie", "watched", none, some 1, [], none, 1⟩] []
      (by decide) (by decide)
  exact ⟨l₁, s₁, h1, h4⟩

/-- C10: the rating endpoint validates input and fails atomically: 404 when
the user has no entry with the tmdb_id, 400 when the rating lies outside 0-5,
and in both error cases the resulting state is the unchanged pre-state; on
success the matched entry's rating equals the given value (and the user's XP
and level are resynced from the new rows). -/
theorem update_rating_correct (tmdb_id : Nat) (rating : Int) (user : User)
    (history : List WatchHistory) :
    (history.find? (fun h => h.tmdb_id == tmdb_id) = none →
      update_rating tmdb_id rating user history = .error 404 ∧
      update_rating_state tmdb_id rating user history = (user, history)) ∧
    ((history.find? (fun h => h.tmdb_id == tmdb_id)).isSome = true →
      (rating < 0 ∨ 5 < rating) →
      update_rating tmdb_id rating user history = .error 400 ∧
      update_rating_state tmdb_id rating user history = (user, history)) ∧
    ((history.find? (fun h => h.tmdb_id == tmdb_id)).isSome = true →
      0 ≤ rating → rating ≤ 5 →
      ∃ u' h', update_rating tmdb_id rating user history = .ok (u', h') ∧
        (∃ e, h'.find? (fun h => h.tmdb_id == tmdb_id) = some e ∧
          e.rating = some rating) ∧
        u'.xp = recalcTotalXp h' ∧
        u'.level = calculate_level (recalcTotalXp h')) := by
  refine ⟨fun h404 => ?_, fun hs hbad => ?_, fun hs h0 h5 => ?_⟩
  · have hn : (history.find? (fun h => h.tmdb_id == tmdb_id)).isNone = true := by
      rw [h404]; rfl
    exact ⟨by simp only [update_rating, hn, if_true],
      by simp only [update_rating_state, update_rating, hn, if_true]⟩
  · rcases Option.isSome_iff_exists.mp hs with ⟨e, he⟩
    exact ⟨by simp only [update_rating, he, Option.isNone_some,
        Bool.false_eq_true, if_false, if_pos hbad],
      by simp only [update_rating_state, update_rating, he, Option.isNone_some,
        Bool.false_eq_true, if_false, if_pos hbad]⟩
  · rcases Option.isSome_iff_exists.mp hs with ⟨e, he⟩
    have hgood : ¬(rating < 0 ∨ 5 < rating) := by omega
    have hpe : ((fun h => h.tmdb_id == tmdb_id)
        ({ e with rating := some rating } : WatchHistory)) = true := by
      simpa using List.find?_some he
    have heq : update_rating tmdb_id rating user history =
        .ok (recalculate_xp user (updateFirst (fun h => h.tmdb_id == tmdb_id)
            (fun h => { h with rating := some rating }) history),
          updateFirst (fun h => h.tmdb_id == tmdb_id)
            (fun h => { h with rating := some rating }) history) := by
      simp only [update_rating, he, Option.isNone_some, Bool.false_eq_true,
        if_false, if_neg hgood]
    exact ⟨_, _, heq, ⟨{ e with rating := some rating },
      find?_updateFirst _ _ history e he hpe, rfl⟩, rfl, rfl⟩

/-- Witness for C10 at concrete inputs: a missing entry yields 404 with the
state unchanged, rating 9 yields 400 with the state unchanged, and rating 4
on an existing entry succeeds and stores rating 4. -/
theorem update_rating_correct_witness :
    (update_rating 9 3 ⟨1, 0, 1⟩ [] = .error 404 ∧
      update_rating_state 9 3 ⟨1, 0, 1⟩ [] = (⟨1, 0, 1⟩, [])) ∧
    (update_rating 7 9 ⟨1, 105, 1⟩
        [⟨1, 7, "M", some "movie", "watched", some 0, some 1, [], none, 1⟩] =
          .error 400 ∧
      update_rating_state 7 9 ⟨1, 105, 1⟩
        [⟨1, 7, "M", some "movie", "watched", some 0, some 1, [], none, 1⟩] =
        (⟨1, 105, 1⟩,
          [⟨1, 7, "M", some "movie", "watched", some 0, some 1, [], none, 1⟩])) ∧
    (∃ u' h', update_rating 7 4 ⟨1, 105, 1⟩
        [⟨1, 7, "M", some "movie", "watched", some 0, some 1, [], none, 1⟩] =
          .ok (u', h') ∧
      (∃ e, h'.find? (fun h => h.tmdb_id == 7) = some e ∧
        e.rating = some 4)) := by
  refine ⟨(update_rating_correct 9 3 ⟨1, 0, 1⟩ []).1 (by decide),
    (update_rating_correct 7 9 ⟨1, 105, 1⟩
      [⟨1, 7, "M", some "movie", "watched", some 0, some 1, [], none, 1⟩]).2.1
      (by decide) (by omega), ?_⟩
  obtain ⟨u', h', h1, h2, _, _⟩ := (update_rating_correct 7 4 ⟨1, 105, 1⟩
    [⟨1, 7, "M", some "movie", "watched", some 0, some 1, [], none, 1⟩]).2.2
    (by decide) (by omega) (by omega)
  exact ⟨u', h', h1, h2⟩

/-- Counterexample for C2: a consistent state — one watched movie, view_count
1, unrated, stored XP 105 equal to the recalculated value — where the rewatch
endpoint leaves stored XP 155 while `recalculate_xp` over the updated rows
yields 115, so stored XP no longer equals the recalculated value. -/
theorem rewatch_xp_desync :
    rewatch_item 7 "t" ⟨1, 105, 1⟩
        [⟨1, 7, "M", some "movie", "watched", some 0, some 1, [], none, 1⟩] =
      some (⟨1, 155, 1⟩,
        [⟨1, 7, "M", some "movie", "watched", some 0, some 2, ["t"], none, 1⟩],
        2) ∧
    (recalculate_xp ⟨1, 105, 1⟩
        [⟨1, 7, "M", some "movie", "watched", some 0, some 1, [], none, 1⟩]).xp =
      105 ∧
    recalcTotalXp
        [⟨1, 7, "M", some "movie", "watched", some 0, some 2, ["t"], none, 1⟩] =
      115 ∧
    (155 : Int) ≠ 115 := by
  refine ⟨?_, ?_, ?_, ?_⟩ <;> decide

/-- Embeds `delete_entry` (main.py:1449-1461): 404 when the user has no row
with the tmdb_id; otherwise the row `first()` returned — the first matching
row — is deleted and XP is resynced from the remaining rows. -/
def delete_entry (tmdb_id : Nat) (user : User) (history : List WatchHistory) :
    Except Nat (User × List WatchHistory) :=
  if (history.find? (fun h => h.tmdb_id == tmdb_id)).isNone then .error 404
  else
    let history' := history.eraseP (fun h => h.tmdb_id == tmdb_id)
    .ok (recalculate_xp user history', history')

/-- Embeds `update_progress` (main.py:1432-1446) on the modelled columns: the
endpoint writes only seasons_watched, episode_progress and watched_episodes —
columns outside the modelled row, which `recalculate_xp` never reads — and
then resyncs XP, so the modelled history passes through unchanged. -/
def update_progress (tmdb_id : Nat) (user : User)
    (history : List WatchHistory) : Except Nat (User × List WatchHistory) :=
  if (history.find? (fun h => h.tmdb_id == tmdb_id)).isNone then .error 404
  else .ok (recalculate_xp user history, history)

/-- The result of the TMDB enrichment phase of `log_content`
(main.py:1271-1311), restricted to the modelled columns: the resolved tmdb
id, title, media type and decoded genre names of the logged title. -/
structure LogData where
  tmdb_id : Nat
  title : String
  media_type : String
  genres : List String
  deriving Repr, DecidableEq

/-- Embeds `log_content` (main.py:1265-1392) on the modelled columns, after a
successful TMDB enrichment `data`.  `req_status` is the request's status,
`now` the ambient timestamp and `new_id` the database key of an inserted row.
Per main.py:1322-1341 an existing row for the title is upgraded to watched
with view_count reset to 1 when it was a watchlist row, rewatched (view_count
incremented, timestamp appended) when the request logs a watched row again —
`none` models the TypeError `entry.view_count += 1` raises on a NULL
view_count — and left unchanged for a non-watched request; otherwise a fresh
row is created with the request's status, rating 0 by column default, and
view_count 1 exactly when logged as watched (main.py:1349-1375).  In every
successful case the gamification hook then resyncs XP from the resulting
rows via `recalculate_xp` (main.py:1386). -/
def log_content (data : LogData) (req_status : String) (now : String)
    (new_id : Nat) (user : User) (history : List WatchHistory) :
    Option (User × List WatchHistory) :=
  match history.find? (fun h => h.tmdb_id == data.tmdb_id) with
  | some entry =>
      if req_status = "watched" then
        if entry.status = "watchlist" then
          let history' := updateFirst (fun h => h.tmdb_id == data.tmdb_id)
            (fun h => { h with status := "watched", view_count := some 1 })
            history
          some (recalculate_xp user history', history')
        else
          match entry.view_count with
          | none => none
          | some v =>
              let history' := updateFirst (fun h => h.tmdb_id == data.tmdb_id)
                (fun h => { h with view_count := some (v + 1), rewatch_dates := h.rewatch_dates ++ [now] })
                history
              some (recalculate_xp user history', history')
      else
        some (recalculate_xp user history, history)
  | none =>
      let history' := history ++
        [{ id := new_id, tmdb_id := data.tmdb_id, title := data.title,
           media_type := some data.media_type, status := req_status,
           rating := some 0,
           view_count := some (if req_status = "watched" then 1 else 0),
           rewatch_dates := [], genres := some data.genres,
           user_id := user.id }]
      some (recalculate_xp user history', history')

/-- C2 (amended): every operation that invokes `recalculate_xp` — logging,
status update, progress update, rating update and deletion — leaves the
stored XP and level equal to the values derived from the current history
rows, but the rewatch endpoint instead adds a flat 50 XP to the stored value
and leaves the level untouched, which in general differs from the
recalculated value. -/
theorem xp_sync_after_operations (tmdb_id : Nat) (now new_status : String)
    (rating : Int) (user : User) (history : List WatchHistory) :
    (∀ u' h' vc, rewatch_item tmdb_id now user history = some (u', h', vc) →
      u'.xp = user.xp + 50 ∧ u'.level = user.level) ∧
    (∀ u' h', update_rating tmdb_id rating user history = .ok (u', h') →
      u'.xp = recalcTotalXp h' ∧ u'.level = calculate_level (recalcTotalXp h')) ∧
    (∀ u' h', update_status tmdb_id new_status user history = .ok (u', h') →
      u'.xp = recalcTotalXp h' ∧ u'.level = calculate_level (recalcTotalXp h')) ∧
    (∀ u' h', delete_entry tmdb_id user history = .ok (u', h') →
      u'.xp = recalcTotalXp h' ∧ u'.level = calculate_level (recalcTotalXp h')) ∧
    (∀ u' h', update_progress tmdb_id user history = .ok (u', h') →
      u'.xp = recalcTotalXp h' ∧ u'.level = calculate_level (recalcTotalXp h')) ∧
    (∀ data req_status new_id u' h',
      log_content data req_status now new_id user history = some (u', h') →
      u'.xp = recalcTotalXp h' ∧
        u'.level = calculate_level (recalcTotalXp h')) := by
  refine ⟨fun u' h' vc hr => ?_, fun u' h' hr => ?_, fun u' h' hr => ?_,
    fun u' h' hr => ?_, fun u' h' hr => ?_,
    fun data req_status new_id u' h' hr => ?_⟩
  · unfold rewatch_item at hr
    split at hr
    · exact absurd hr (by simp)
    · split at hr
      · exact absurd hr (by simp)
      · cases hr
        exact ⟨rfl, rfl⟩
  · unfold update_rating at hr
    split_ifs at hr
    cases hr
    exact ⟨rfl, rfl⟩
  · unfold update_status at hr
    split_ifs at hr
    cases hr
    exact ⟨rfl, rfl⟩
  · unfold delete_entry at hr
    split_ifs at hr
    cases hr
    exact ⟨rfl, rfl⟩
  · unfold update_progress at hr
    split_ifs at hr
    cases hr
    exact ⟨rfl, rfl⟩
  · unfold log_content at hr
    split at hr
    · split_ifs at hr
      · cases hr
        exact ⟨rfl, rfl⟩
      · split at hr
        · exact absurd hr (by simp)
        · cases hr
          exact ⟨rfl, rfl⟩
      · cases hr
        exact ⟨rfl, rfl⟩
    · cases hr
      exact ⟨rfl, rfl⟩

/-- Witness for the amended C2 at concrete inputs: a successful rewatch adds
exactly 50 XP, while successful rating-update, deletion, progress-update and
logging calls store the recalculated XP. -/
theorem xp_sync_after_operations_witness :
    (∃ u' h' vc, rewatch_item 7 "t" ⟨1, 105, 1⟩
        [⟨1, 7, "M", some "movie", "watched", some 0, some 1, [], none, 1⟩] =
          some (u', h', vc) ∧ u'.xp = (105 : Int) + 50) ∧
    (∃ u' h', update_rating 7 4 ⟨1, 105, 1⟩
        [⟨1, 7, "M", some "movie", "watched", some 0, some 1, [], none, 1⟩] =
          .ok (u', h') ∧ u'.xp = recalcTotalXp h') ∧
    (∃ u' h', delete_entry 7 ⟨1, 105, 1⟩
        [⟨1, 7, "M", some "movie", "watched", some 0, some 1, [], none, 1⟩] =
          .ok (u', h') ∧ u'.xp = recalcTotalXp h') ∧
    (∃ u' h', update_progress 7 ⟨1, 105, 1⟩
        [⟨1, 7, "M", some "movie", "watched", some 0, some 1, [], none, 1⟩] =
          .ok (u', h') ∧ u'.xp = recalcTotalXp h') ∧
    (∃ u' h', log_content ⟨8, "N", "movie", ["Action"]⟩ "watched" "t" 2
        ⟨1, 105, 1⟩ [] = some (u', h') ∧ u'.xp = recalcTotalXp h') := by
  refine ⟨?_, ?_, ?_, ?_, ?_⟩
  · have he : rewatch_item 7 "t" ⟨1, 105, 1⟩
        [⟨1, 7, "M", some "movie", "watched", some 0, some 1, [], none, 1⟩] =
        some (⟨1, 155, 1⟩,
          [⟨1, 7, "M", some "movie", "watched", some 0, some 2, ["t"], none, 1⟩],
          2) := by decide
    exact ⟨_, _, _, he,
      ((xp_sync_after_operations 7 "t" "x" 0 ⟨1, 105, 1⟩
        [⟨1, 7, "M", some "movie", "watched", some 0, some 1, [], none, 1⟩]).1
        _ _ _ he).1⟩
  · have he : update_rating 7 4 ⟨1, 105, 1⟩
        [⟨1, 7, "M", some "movie", "watched", some 0, some 1, [], none, 1⟩] =
        .ok (recalculate_xp ⟨1, 105, 1⟩
          [⟨1, 7, "M", some "movie", "watched", some 4, some 1, [], none, 1⟩],
          [⟨1, 7, "M", some "movie", "watched", some 4, some 1, [], none, 1⟩]) := by
      rfl
    exact ⟨_, _, he,
      ((xp_sync_after_operations 7 "t" "x" 4 ⟨1, 105, 1⟩
        [⟨1, 7, "M", some "movie", "watched", some 0, some 1, [], none, 1⟩]).2.1
        _ _ he).1⟩
  · have he : delete_entry 7 ⟨1, 105, 1⟩
        [⟨1, 7, "M", some "movie", "watched", some 0, some 1, [], none, 1⟩] =
        .ok (recalculate_xp ⟨1, 105, 1⟩ [], []) := by
      rfl
    exact ⟨_, _, he,
      ((xp_sync_after_operations 7 "t" "x" 4 ⟨1, 105, 1⟩
        [⟨1, 7, "M", some "movie", "watched", some 0, some 1, [], none, 1⟩]).2.2.2.1
        _ _ he).1⟩
  · have he : update_progress 7 ⟨1, 105, 1⟩
        [⟨1, 7, "M", some "movie", "watched", some 0, some 1, [], none, 1⟩] =
        .ok (recalculate_xp ⟨1, 105, 1⟩
          [⟨1, 7, "M", some "movie", "watched", some 0, some 1, [], none, 1⟩],
          [⟨1, 7, "M", some "movie", "watched", some 0, some 1, [], none, 1⟩]) := by
      rfl
    exact ⟨_, _, he,
      ((xp_sync_after_operations 7 "t" "x" 4 ⟨1, 105, 1⟩
        [⟨1, 7, "M", some "movie", "watched", some 0, some 1, [], none, 1⟩]).2.2.2.2.1
        _ _ he).1⟩
  · have he : log_content ⟨8, "N", "movie", ["Action"]⟩ "watched" "t" 2
        ⟨1, 105, 1⟩ [] =
        some (recalculate_xp ⟨1, 105, 1⟩
          [⟨2, 8, "N", some "movie", "watched", some 0, some 1, [],
            some ["Action"], 1⟩],
          [⟨2, 8, "N", some "movie", "watched", some 0, some 1, [],
            some ["Action"], 1⟩]) := by
      rfl
    exact ⟨_, _, he,
      ((xp_sync_after_operations 8 "t" "x" 4 ⟨1, 105, 1⟩ []).2.2.2.2.2
        ⟨8, "N", "movie", ["Action"]⟩ "watched" 2 _ _ he).1⟩

/-- The row invariant the code actually maintains (the `status` comment at
main.py:283 lists watchlist, watched and blocked): a history row's status is
watchlist, watched or blocked, and its media_type is movie, tv, or the
unknown placeholder `block_item` writes. -/
def rowWF (r : WatchHistory) : Prop :=
  (r.status = "watchlist" ∨ r.status = "watched" ∨ r.status = "blocked") ∧
  (r.media_type = some "movie" ∨ r.media_type = some "tv" ∨
    r.media_type = some "unknown")

/-- Counterexample for C9: blocking a title absent from the history creates a
row whose status is blocked — not watchlist or watched — and whose media_type
is unknown — not movie or tv. -/
theorem block_item_creates_blocked_row :
    block_item 5 1 10 [] =
      [⟨10, 5, "Blocked Item", some "unknown", "blocked", some 0, some 1, [],
        none, 1⟩] ∧
    ¬((("blocked" : String) = "watchlist" ∨ ("blocked" : String) = "watched") ∧
      ((some "unknown" : Option String) = some "movie" ∨
        (some "unknown" : Option String) = some "tv")) := by
  exact ⟨by decide, by decide⟩

/-- C9 (amended): every history row an operation creates or updates has
status watchlist, watched or blocked and media_type movie, tv or unknown:
rows created by the log endpoint with a well-formed request are watchlist or
watched with media_type movie or tv, while `block_item` creates blocked rows
with media_type unknown; the block, rewatch, rating and (with a well-formed
request) status operations preserve this extended invariant. -/
theorem history_rows_wf (tmdb_id current_user new_id : Nat)
    (now new_status : String) (rating : Int) (user : User)
    (history : List WatchHistory) (hwf : ∀ r ∈ history, rowWF r) :
    (∀ r ∈ block_item tmdb_id current_user new_id history, rowWF r) ∧
    (∀ u' h' vc, rewatch_item tmdb_id now user history = some (u', h', vc) →
      ∀ r ∈ h', rowWF r) ∧
    (∀ u' h', update_rating tmdb_id rating user history = .ok (u', h') →
      ∀ r ∈ h', rowWF r) ∧
    (new_status = "watchlist" ∨ new_status = "watched" →
      ∀ u' h', update_status tmdb_id new_status user history = .ok (u', h') →
      ∀ r ∈ h', rowWF r) := by
  refine ⟨?_, ?_, ?_, ?_⟩
  · intro r hr
    unfold block_item at hr
    split_ifs at hr
    · rcases mem_updateFirst _ _ _ _ hr with h | ⟨x, hx, rfl⟩
      · exact hwf r h
      · exact ⟨Or.inr (Or.inr rfl), (hwf x hx).2⟩
    · rcases List.mem_append.mp hr with h | h
      · exact hwf r h
      · rcases List.mem_singleton.mp h with rfl
        exact ⟨Or.inr (Or.inr rfl), Or.inr (Or.inr rfl)⟩
  · intro u' h' vc hrw
    unfold rewatch_item at hrw
    split at hrw
    · exact absurd hrw (by simp)
    · rename_i item hfind
      split at hrw
      · exact absurd hrw (by simp)
      · cases hrw
        intro r hr
        rcases mem_updateFirst _ _ _ _ hr with h | ⟨x, _, rfl⟩
        · exact hwf r h
        · exact hwf item (List.mem_of_find?_eq_some hfind)
  · intro u' h' hup
    unfold update_rating at hup
    split_ifs at hup
    cases hup
    intro r hr
    rcases mem_updateFirst _ _ _ _ hr with h | ⟨x, hx, rfl⟩
    · exact hwf r h
    · exact ⟨(hwf x hx).1, (hwf x hx).2⟩
  · intro hst u' h' hup
    unfold update_status at hup
    split_ifs at hup
    cases hup
    intro r hr
    rcases mem_updateFirst _ _ _ _ hr with h | ⟨x, hx, rfl⟩
    · exact hwf r h
    · refine ⟨?_, (hwf x hx).2⟩
      rcases hst with h | h
      · exact Or.inl h
      · exact Or.inr (Or.inl h)
  
/-- Witness for the amended C9 at a concrete state: blocking an unseen title
in a well-formed one-row history leaves the created placeholder row
satisfying the extended status/media invariant. -/
theorem history_rows_wf_witness :
    rowWF ⟨10, 5, "Blocked Item", some "unknown", "blocked", some 0, some 1,
      [], none, 1⟩ := by
  have h := (history_rows_wf 5 1 10 "t" "watchlist" 0 ⟨1, 0, 1⟩
    [⟨1, 7, "M", some "movie", "watched", some 0, some 1, [], none, 1⟩]
    (by intro r hr; rcases List.mem_singleton.mp hr with rfl;
        exact ⟨Or.inr (Or.inl rfl), Or.inl rfl⟩)).1
  refine h ⟨10, 5, "Blocked Item", some "unknown", "blocked", some 0, some 1,
    [], none, 1⟩ ?_
  decide

/-- ASCII lower-casing of one character, the relevant fragment of Python's
`str.lower()` for the media-type strings at play. -/
def pyLowerChar (c : Char) : Char :=
  if 65 ≤ c.toNat ∧ c.toNat ≤ 90 then Char.ofNat (c.toNat + 32) else c

/-- Embeds `.lower()` on media-type strings. -/
def pyLower (s : String) : String :=
  String.mk (s.data.map pyLowerChar)

/-- An entry of a TMDB recommendations or trending `results` array, restricted
to the fields `get_recommendations` reads.  `vote_average` is `none` when the
key is missing (the code reads it with `.get('vote_average', 0)`); likewise
`media_type` (per-type recommendation endpoints omit it); `hasTitle` and
`hasName` record the presence of the `title`/`name` keys, which the final
media_type heuristic inspects. -/
structure RecRecord where
  id : Nat
  vote_average : Option ℚ
  media_type : Option String
  hasTitle : Bool
  hasName : Bool
  deriving Repr, DecidableEq

/-- A value of the `candidates` dict of `get_recommendations` (main.py:2118):
the stored record, the seed intersection count, the source titles, and the
base score. -/
structure Cand where
  data : RecRecord
  count : Nat
  sources : List String
  score : ℚ
  deriving Repr, DecidableEq

/-- An item of the endpoint's response, restricted to the fields the claims
concern: the underlying record, the final media_type, the computed
match_score, and the sources list the reason string is formatted from. -/
structure RecOut where
  data : RecRecord
  media_type : Option String
  match_score : ℚ
  sources : List String
  deriving Repr, DecidableEq

/-- The `seen_lookup` set (main.py:2085-2093): each history row contributes
its (tmdb_id, lower-cased media_type defaulting to movie) pair.  The model's
tmdb_id is already an integer, so the `int(...)` conversion never raises. -/
def seenLookup (history : List WatchHistory) : List (Nat × String) :=
  history.map (fun h => (h.tmdb_id, pyLower (h.media_type.getD "movie")))

/-- The seed's endpoint type, `(item.media_type or 'movie').lower()`
(main.py:2124). -/
def seedType (item : WatchHistory) : String :=
  pyLower (item.media_type.getD "movie")

/-- Seed deduplication by tmdb_id preserving first occurrences
(main.py:2109-2115). -/
def uniqueSeeds (seeds : List WatchHistory) : List WatchHistory :=
  (seeds.foldl (fun acc s =>
    if s.tmdb_id ∈ acc.2 then acc else (acc.1 ++ [s], acc.2 ++ [s.tmdb_id]))
    ([], [])).1

/-- The slice of a seed's recommendation response the loop analyses
(main.py:2130-2132): results with vote_average below 6 are dropped, then the
first ten are kept. -/
def analysedRecs (results : List RecRecord) : List RecRecord :=
  (results.filter (fun r => decide ((6 : ℚ) ≤ r.vote_average.getD 0))).take 10

/-- `if 'media_type' not in rec: rec['media_type'] = rec_type`
(main.py:2142). -/
def injectMediaType (r : RecRecord) (t : String) : RecRecord :=
  { r with media_type := some (r.media_type.getD t) }

/-- Dict update: apply `f` to the entry with key `k`.  The dict is only ever
extended with absent keys, so keys are unique. -/
def updateCand (k : Nat) (f : Cand → Cand) (cands : List (Nat × Cand)) :
    List (Nat × Cand) :=
  cands.map (fun e => if e.1 = k then (e.1, f e.2) else e)

/-- Processing of one analysed recommendation of one seed (main.py:2137-2152):
skip ids whose (id, seed type) pair appears in seen_lookup; otherwise create
the candidate entry if absent (count 0, no sources, base score the record's
vote_average, media_type injected when missing), then increment its count and
append the seed's title to its sources. -/
def seedRecStep (seen : List (Nat × String)) (st : String) (title : String)
    (cands : List (Nat × Cand)) (rec : RecRecord) : List (Nat × Cand) :=
  if (rec.id, st) ∈ seen then cands
  else
    let cands' := if (cands.find? (fun e => e.1 == rec.id)).isSome then cands
      else cands ++ [(rec.id, ⟨injectMediaType rec st, 0, [],
        rec.vote_average.getD 0⟩)]
    updateCand rec.id
      (fun c => { c with count := c.count + 1, sources := c.sources ++ [title] })
      cands'

/-- Processing of one seed (main.py:2121-2155): fetch its recommendations —
`fetchRec` abstracts the HTTP call, `none` standing for a non-200 response or
a raised exception — and fold the analysed slice into the candidates. -/
def seedStep (seen : List (Nat × String))
    (fetchRec : Nat → String → Option (List RecRecord))
    (cands : List (Nat × Cand)) (item : WatchHistory) : List (Nat × Cand) :=
  match fetchRec item.tmdb_id (seedType item) with
  | none => cands
  | some results =>
      (analysedRecs results).foldl (seedRecStep seen (seedType item) item.title)
        cands

/-- One trending record of the trending fill (main.py:2164-2172): a record
absent from seen_lookup — keyed by `mt`, its media_type defaulting to movie —
and from the candidates gets an entry with count 1, source Global Trends, and
base score vote_average * 1.1. -/
def trendingStep (seen : List (Nat × String)) (cands : List (Nat × Cand))
    (t : RecRecord) : List (Nat × Cand) :=
  if (t.id, t.media_type.getD "movie") ∉ seen ∧
      (cands.find? (fun e => e.1 == t.id)).isNone then
    cands ++ [(t.id, ⟨t, 1, ["Global Trends"],
      t.vote_average.getD 0 * (11 / 10)⟩)]
  else cands

/-- The trending fill (main.py:2157-2174), run only when fewer than ten
candidates were collected; `none` stands for a non-200 trending response or a
raised exception. -/
def trendingFill (seen : List (Nat × String))
    (trending : Option (List RecRecord)) (cands : List (Nat × Cand)) :
    List (Nat × Cand) :=
  if cands.length < 10 then
    match trending with
    | none => cands
    | some ts => ts.foldl (trendingStep seen) cands
  else cands

/-- Formatting of one candidate (main.py:2185-2217): the count boost
`1 + (count - 1) * 0.5` applied to the base score, the final media_type
heuristic (keep an explicit media_type, else movie when a title key exists,
else tv when a name key exists), and the retained sources list, from which
the reason string is derived. -/
def formatCand (e : Nat × Cand) : RecOut :=
  let info := e.2
  let fs := info.score * (1 + ((info.count : ℚ) - 1) * (1 / 2))
  let mt := match info.data.media_type with
    | some m => some m
    | none => if info.data.hasTitle then some "movie"
        else if info.data.hasName then some "tv" else none
  ⟨info.data, mt, fs, info.sources⟩

/-- Embeds the non-empty-history path of `get_recommendations`
(main.py:2075-2222).  `seeds` stands for the `seeds` list assembled at
main.py:2096-2107; its recency/favourites/random selection draws on
`random.sample`, so the assembled list is taken as an input.  `fetchRec` and
`trending` are the observed upstream responses.  The result is the formatted
candidate list sorted by descending match_score and truncated to 18. -/
def get_recommendations (history : List WatchHistory)
    (seeds : List WatchHistory)
    (fetchRec : Nat → String → Option (List RecRecord))
    (trending : Option (List RecRecord)) : List RecOut :=
  let seen := seenLookup history
  let cands := (uniqueSeeds seeds).foldl (seedStep seen fetchRec) []
  let cands := trendingFill seen trending cands
  (sortDescBy (fun r => r.match_score) (cands.map formatCand)).take 18

/-- The ids a seed response contributes to the candidates: the analysed
records that pass the seen_lookup filter for seed type `st`. -/
def seedIds (seen : List (Nat × String)) (st : String)
    (l : List RecRecord) : List Nat :=
  (l.filter (fun r => decide ((r.id, st) ∉ seen))).map (fun r => r.id)

/-- Whether seed `s` suggests candidate id `k`: `k` appears among the
analysed recommendations of `s` that pass the seen_lookup filter. -/
def suggests (seen : List (Nat × String))
    (fetchRec : Nat → String → Option (List RecRecord)) (k : Nat)
    (s : WatchHistory) : Bool :=
  match fetchRec s.tmdb_id (seedType s) with
  | none => false
  | some results =>
      decide (k ∈ seedIds seen (seedType s) (analysedRecs results))

/-- The number of seeds that suggest candidate id `k`. -/
def suggestionCount (seen : List (Nat × String))
    (fetchRec : Nat → String → Option (List RecRecord))
    (seeds : List WatchHistory) (k : Nat) : Nat :=
  seeds.countP (suggests seen fetchRec k)

/-- The candidate-entry invariant behind C3: the stored record carries an
explicit media_type whose (id, media_type) pair passed the seen_lookup
filter, and the entry is keyed by the record's id. -/
def QRec (seen : List (Nat × String)) (e : Nat × Cand) : Prop :=
  ∃ m, e.2.data.media_type = some m ∧ (e.2.data.id, m) ∉ seen ∧
    e.1 = e.2.data.id

theorem seedRecStep_QRec (seen : List (Nat × String)) (st title : String)
    (cands : List (Nat × Cand)) (rec : RecRecord)
    (hm : rec.media_type = none) (hQ : ∀ e ∈ cands, QRec seen e) :
    ∀ e ∈ seedRecStep seen st title cands rec, QRec seen e := by
  intro e he
  unfold seedRecStep at he
  split_ifs at he with hseen hfound
  · exact hQ e he
  · obtain ⟨e₀, he₀, heq⟩ := List.mem_map.mp he
    rcases hQ e₀ he₀ with ⟨m, hm', hns, hid⟩
    rw [← heq]
    by_cases h : e₀.1 = rec.id
    · simp only [h, if_true]
      exact ⟨m, hm', hns, h ▸ hid⟩
    · simp only [h, if_false]
      exact ⟨m, hm', hns, hid⟩
  · obtain ⟨e₀, he₀, heq⟩ := List.mem_map.mp he
    have hQ0 : QRec seen e₀ := by
      rcases List.mem_append.mp he₀ with h | h
      · exact hQ e₀ h
      · rcases List.mem_singleton.mp h with rfl
        exact ⟨st, by simp [injectMediaType, hm], by
          simpa [injectMediaType] using hseen, by simp [injectMediaType]⟩
    rcases hQ0 with ⟨m, hm', hns, hid⟩
    rw [← heq]
    by_cases h : e₀.1 = rec.id
    · simp only [h, if_true]
      exact ⟨m, hm', hns, h ▸ hid⟩
    · simp only [h, if_false]
      exact ⟨m, hm', hns, hid⟩

theorem innerFold_QRec (seen : List (Nat × String)) (st title : String)
    (l : List RecRecord) (cands : List (Nat × Cand))
    (hl : ∀ r ∈ l, r.media_type = none) (hQ : ∀ e ∈ cands, QRec seen e) :
    ∀ e ∈ l.foldl (seedRecStep seen st title) cands, QRec seen e := by
  induction l generalizing cands with
  | nil => exact hQ
  | cons r rest ih =>
    simp only [List.foldl_cons]
    exact ih _ (fun r' hr' => hl r' (List.mem_cons_of_mem _ hr'))
      (seedRecStep_QRec seen st title cands r (hl r (List.mem_cons_self _ _)) hQ)

theorem seedPhase_QRec (seen : List (Nat × String))
    (fetchRec : Nat → String → Option (List RecRecord))
    (ss : List WatchHistory) (cands : List (Nat × Cand))
    (hfetch : ∀ tid st l, fetchRec tid st = some l →
      ∀ r ∈ l, r.media_type = none)
    (hQ : ∀ e ∈ cands, QRec seen e) :
    ∀ e ∈ ss.foldl (seedStep seen fetchRec) cands, QRec seen e := by
  induction ss generalizing cands with
  | nil => exact hQ
  | cons s rest ih =>
    simp only [List.foldl_cons]
    apply ih
    unfold seedStep
    rcases hf : fetchRec s.tmdb_id (seedType s) with _ | results
    · exact hQ
    · refine innerFold_QRec seen (seedType s) s.title (analysedRecs results)
        cands (fun r hr => ?_) hQ
      refine hfetch _ _ _ hf r ?_
      unfold analysedRecs at hr
      exact List.mem_of_mem_filter (List.mem_of_mem_take hr)

theorem trendingStep_QRec (seen : List (Nat × String))
    (cands : List (Nat × Cand)) (t : RecRecord)
    (hm : t.media_type.isSome = true) (hQ : ∀ e ∈ cands, QRec seen e) :
    ∀ e ∈ trendingStep seen cands t, QRec seen e := by
  intro e he
  unfold trendingStep at he
  split_ifs at he with hg
  · rcases List.mem_append.mp he with h | h
    · exact hQ e h
    · rcases List.mem_singleton.mp h with rfl
      rcases Option.isSome_iff_exists.mp hm with ⟨m, hm'⟩
      refine ⟨m, hm', ?_, rfl⟩
      have hg1 := hg.1
      rwa [hm'] at hg1
  · exact hQ e he

theorem trendingFold_QRec (seen : List (Nat × String)) (ts : List RecRecord)
    (cands : List (Nat × Cand))
    (hts : ∀ t ∈ ts, t.media_type.isSome = true)
    (hQ : ∀ e ∈ cands, QRec seen e) :
    ∀ e ∈ ts.foldl (trendingStep seen) cands, QRec seen e := by
  induction ts generalizing cands with
  | nil => exact hQ
  | cons t rest ih =>
    simp only [List.foldl_cons]
    exact ih _ (fun t' ht' => hts t' (List.mem_cons_of_mem _ ht'))
      (trendingStep_QRec seen cands t (hts t (List.mem_cons_self _ _)) hQ)

theorem trendingFill_QRec (seen : List (Nat × String))
    (trending : Option (List RecRecord)) (cands : List (Nat × Cand))
    (htrend : ∀ ts, trending = some ts → ∀ t ∈ ts, t.media_type.isSome = true)
    (hQ : ∀ e ∈ cands, QRec seen e) :
    ∀ e ∈ trendingFill seen trending cands, QRec seen e := by
  unfold trendingFill
  split_ifs
  · rcases ht : trending with _ | ts
    · exact hQ
    · exact trendingFold_QRec seen ts cands (htrend ts ht) hQ
  · exact hQ

/-- C3 (amended): for upstream data of the documented shapes — per-type
recommendation results carrying no media_type key, trending results carrying
an explicit one — and history rows whose media_type values are lower-case,
the recommendations pipeline never returns an item whose (tmdb_id,
media_type) pair already appears in the user's watch history, whatever the
row's status; this covers both seed-derived and trending-fill candidates. -/
theorem get_recommendations_no_seen (history : List WatchHistory)
    (seeds : List WatchHistory)
    (fetchRec : Nat → String → Option (List RecRecord))
    (trending : Option (List RecRecord))
    (hfetch : ∀ tid st l, fetchRec tid st = some l →
      ∀ r ∈ l, r.media_type = none)
    (htrend : ∀ ts, trending = some ts → ∀ t ∈ ts, t.media_type.isSome = true)
    (hlower : ∀ h ∈ history, ∀ m, h.media_type = some m → pyLower m = m) :
    ∀ r ∈ get_recommendations history seeds fetchRec trending,
      (r.data.id, r.media_type) ∉
        history.map (fun h => (h.tmdb_id, h.media_type)) := by
  intro r hr hmem
  unfold get_recommendations at hr
  have hr' : r ∈ (trendingFill (seenLookup history) trending
      ((uniqueSeeds seeds).foldl (seedStep (seenLookup history) fetchRec)
        [])).map formatCand :=
    (perm_sortDescBy (fun r => r.match_score) _).mem_iff.mp
      (List.mem_of_mem_take hr)
  obtain ⟨e, he, rfl⟩ := List.mem_map.mp hr'
  have hQ : QRec (seenLookup history) e :=
    trendingFill_QRec (seenLookup history) trending _ htrend
      (seedPhase_QRec (seenLookup history) fetchRec (uniqueSeeds seeds) []
        hfetch (by intro e h; simp at h)) e he
  obtain ⟨m, hmedia, hns, hid⟩ := hQ
  obtain ⟨h0, hh0, hpair⟩ := List.mem_map.mp hmem
  have hfm : (formatCand e).media_type = some m := by
    simp [formatCand, hmedia]
  have hfd : (formatCand e).data = e.2.data := rfl
  rw [hfd, hfm] at hpair
  have hid0 : h0.tmdb_id = e.2.data.id := ((Prod.mk.injEq _ _ _ _).mp hpair).1
  have hmt0 : h0.media_type = some m := ((Prod.mk.injEq _ _ _ _).mp hpair).2
  have hlm : pyLower m = m := hlower h0 hh0 m hmt0
  apply hns
  have hsl : (h0.tmdb_id, pyLower (h0.media_type.getD "movie")) ∈
      seenLookup history := List.mem_map.mpr ⟨h0, hh0, rfl⟩
  rw [hmt0, hid0] at hsl
  simpa [hlm] using hsl

/-- The history row used in the C3 counterexample and witness: tmdb_id 7
logged as a tv show. -/
def c3Row : WatchHistory :=
  ⟨1, 7, "X", some "tv", "watched", none, some 1, [], none, 1⟩

/-- Counterexample for C3: with history row (7, tv), a trending record for
id 7 that carries no media_type key but has a name key is filtered against
the pair (7, movie) — the default the fill uses — so it survives, and the
final heuristic then labels it tv: the endpoint returns an item whose
(tmdb_id, media_type) pair (7, tv) already appears in the watch history. -/
theorem trending_fill_returns_seen_pair :
    ∃ r ∈ get_recommendations [c3Row] [c3Row] (fun _ _ => none)
        (some [⟨7, some 7, none, false, true⟩]),
      (r.data.id, r.media_type) ∈
        List.map (fun h => (h.tmdb_id, h.media_type)) [c3Row] := by
  have hout : get_recommendations [c3Row] [c3Row] (fun _ _ => none)
      (some [⟨7, some 7, none, false, true⟩]) =
      [formatCand (7, ⟨⟨7, some 7, none, false, true⟩, 1, ["Global Trends"],
        (some (7 : ℚ)).getD 0 * (11 / 10)⟩)] := rfl
  refine ⟨formatCand (7, ⟨⟨7, some 7, none, false, true⟩, 1, ["Global Trends"],
    (some (7 : ℚ)).getD 0 * (11 / 10)⟩), ?_, ?_⟩
  · rw [hout]
    exact List.mem_singleton.mpr rfl
  · decide

/-- Witness for the amended C3: with the same history, a trending record that
carries an explicit media_type (9, movie) comes back, and its pair is indeed
absent from the history. -/
theorem get_recommendations_no_seen_witness :
    ((formatCand (9, ⟨⟨9, some 7, some "movie", true, false⟩, 1,
        ["Global Trends"], (some (7 : ℚ)).getD 0 * (11 / 10)⟩)).data.id,
      (formatCand (9, ⟨⟨9, some 7, some "movie", true, false⟩, 1,
        ["Global Trends"], (some (7 : ℚ)).getD 0 * (11 / 10)⟩)).media_type) ∉
      List.map (fun h => (h.tmdb_id, h.media_type)) [c3Row] := by
  have hout : get_recommendations [c3Row] [c3Row] (fun _ _ => none)
      (some [⟨9, some 7, some "movie", true, false⟩]) =
      [formatCand (9, ⟨⟨9, some 7, some "movie", true, false⟩, 1,
        ["Global Trends"], (some (7 : ℚ)).getD 0 * (11 / 10)⟩)] := rfl
  refine get_recommendations_no_seen [c3Row] [c3Row] (fun _ _ => none)
    (some [⟨9, some 7, some "movie", true, false⟩]) ?_ ?_ ?_ _ ?_
  · intro tid st l h
    cases h
  · intro ts hts t ht
    cases hts
    rcases List.mem_singleton.mp ht with rfl
    rfl
  · intro h hh m hm
    rcases List.mem_singleton.mp hh with rfl
    cases hm
    decide
  · rw [hout]
    exact List.mem_singleton.mpr rfl

theorem updateCand_keys (k : Nat) (f : Cand → Cand)
    (cands : List (Nat × Cand)) :
    (updateCand k f cands).map Prod.fst = cands.map Prod.fst := by
  unfold updateCand
  induction cands with
  | nil => rfl
  | cons e t ih =>
    simp only [List.map_cons, List.map_cons] at *
    by_cases h : e.1 = k <;> simp [h, ih]

theorem mem_updateCand (k : Nat) (f : Cand → Cand)
    (cands : List (Nat × Cand)) (e : Nat × Cand)
    (he : e ∈ updateCand k f cands) :
    ∃ e₀ ∈ cands, e = if e₀.1 = k then (e₀.1, f e₀.2) else e₀ := by
  obtain ⟨e₀, he₀, heq⟩ := List.mem_map.mp he
  exact ⟨e₀, he₀, heq.symm⟩

theorem mem_updateCand_of_mem (k : Nat) (f : Cand → Cand)
    (cands : List (Nat × Cand)) (e₀ : Nat × Cand) (he₀ : e₀ ∈ cands) :
    (if e₀.1 = k then (e₀.1, f e₀.2) else e₀) ∈ updateCand k f cands :=
  List.mem_map.mpr ⟨e₀, he₀, rfl⟩

theorem seedIds_sub_ids (seen : List (Nat × String)) (st : String)
    (l : List RecRecord) (k : Nat) (h : k ∈ seedIds seen st l) :
    k ∈ l.map (fun r => r.id) := by
  unfold seedIds at h
  obtain ⟨x, hx, rfl⟩ := List.mem_map.mp h
  exact List.mem_map.mpr ⟨x, List.mem_of_mem_filter hx, rfl⟩

theorem updateCand_fst_image (k : Nat) (f : Cand → Cand) (e₀ : Nat × Cand) :
    ((if e₀.1 = k then (e₀.1, f e₀.2) else e₀) : Nat × Cand).1 = e₀.1 := by
  split_ifs <;> rfl

theorem innerFoldFinish (seen : List (Nat × String)) (st title : String)
    (r : RecRecord) (rest : List RecRecord)
    (ih : (rest.map (fun r => r.id)).Nodup →
      ∀ (cands : List (Nat × Cand)) (base : Nat → Nat),
      (cands.map Prod.fst).Nodup →
      (∀ e ∈ cands, e.1 = e.2.data.id ∧
        e.2.score = e.2.data.vote_average.getD 0 ∧ e.2.count = base e.1) →
      (∀ e ∈ cands, 1 ≤ e.2.count) →
      (∀ k, (∀ e ∈ cands, e.1 ≠ k) → base k = 0) →
      (((rest.foldl (seedRecStep seen st title) cands).map Prod.fst).Nodup ∧
       (∀ e ∈ rest.foldl (seedRecStep seen st title) cands,
          e.1 = e.2.data.id ∧ e.2.score = e.2.data.vote_average.getD 0 ∧
          e.2.count = base e.1 +
            (if e.1 ∈ seedIds seen st rest then 1 else 0)) ∧
       (∀ e ∈ rest.foldl (seedRecStep seen st title) cands, 1 ≤ e.2.count) ∧
       (∀ k, (∀ e ∈ rest.foldl (seedRecStep seen st title) cands, e.1 ≠ k) →
          base k + (if k ∈ seedIds seen st rest then 1 else 0) = 0)))
    (hndr : (rest.map (fun r => r.id)).Nodup)
    (hnotin : r.id ∉ seedIds seen st rest)
    (cands₁ : List (Nat × Cand)) (base : Nat → Nat)
    (hA1 : (cands₁.map Prod.fst).Nodup)
    (hA2 : ∀ e ∈ cands₁, e.1 = e.2.data.id ∧
      e.2.score = e.2.data.vote_average.getD 0 ∧ e.2.count = base e.1)
    (hA2b : ∀ e ∈ cands₁, 1 ≤ e.2.count ∨ e.1 = r.id)
    (hA3 : r.id ∈ cands₁.map Prod.fst)
    (hA4 : ∀ k, (∀ e ∈ cands₁, e.1 ≠ k) → base k = 0) :
    (((rest.foldl (seedRecStep seen st title)
        (updateCand r.id (fun c => { c with count := c.count + 1, sources := c.sources ++ [title] }) cands₁)).map Prod.fst).Nodup ∧
     (∀ e ∈ rest.foldl (seedRecStep seen st title)
        (updateCand r.id (fun c => { c with count := c.count + 1, sources := c.sources ++ [title] }) cands₁),
        e.1 = e.2.data.id ∧ e.2.score = e.2.data.vote_average.getD 0 ∧
        e.2.count = base e.1 +
          (if e.1 ∈ r.id :: seedIds seen st rest then 1 else 0)) ∧
     (∀ e ∈ rest.foldl (seedRecStep seen st title)
        (updateCand r.id (fun c => { c with count := c.count + 1, sources := c.sources ++ [title] }) cands₁), 1 ≤ e.2.count) ∧
     (∀ k, (∀ e ∈ rest.foldl (seedRecStep seen st title)
        (updateCand r.id (fun c => { c with count := c.count + 1, sources := c.sources ++ [title] }) cands₁), e.1 ≠ k) →
        base k + (if k ∈ r.id :: seedIds seen st rest then 1 else 0) = 0)) := by
  set inc : Cand → Cand := fun c => { c with count := c.count + 1, sources := c.sources ++ [title] } with hinc
  set base' : Nat → Nat := fun k => if k = r.id then base k + 1 else base k
    with hbase'
  have hkeys : (updateCand r.id inc cands₁).map Prod.fst =
      cands₁.map Prod.fst := updateCand_keys _ _ _
  have hB1 : ((updateCand r.id inc cands₁).map Prod.fst).Nodup := by
    rw [hkeys]; exact hA1
  have hB2 : ∀ e ∈ updateCand r.id inc cands₁, e.1 = e.2.data.id ∧
      e.2.score = e.2.data.vote_average.getD 0 ∧ e.2.count = base' e.1 := by
    intro e he
    obtain ⟨e₀, he₀, heq⟩ := mem_updateCand _ _ _ _ he
    obtain ⟨hid0, hs0, hc0⟩ := hA2 e₀ he₀
    subst heq
    by_cases h : e₀.1 = r.id
    · rw [if_pos h]
      refine ⟨hid0, hs0, ?_⟩
      show e₀.2.count + 1 = base' e₀.1
      rw [hbase', hc0]
      simp [h]
    · rw [if_neg h]
      refine ⟨hid0, hs0, ?_⟩
      rw [hbase', hc0]
      simp [h]
  have hB2b : ∀ e ∈ updateCand r.id inc cands₁, 1 ≤ e.2.count := by
    intro e he
    obtain ⟨e₀, he₀, heq⟩ := mem_updateCand _ _ _ _ he
    subst heq
    by_cases h : e₀.1 = r.id
    · rw [if_pos h]
      exact Nat.le_add_left 1 _
    · rw [if_neg h]
      rcases hA2b e₀ he₀ with hle | hk
      · exact hle
      · exact absurd hk h
  have hB3 : ∀ k, (∀ e ∈ updateCand r.id inc cands₁, e.1 ≠ k) →
      base' k = 0 := by
    intro k hk
    have hkne : k ≠ r.id := by
      intro hkr
      obtain ⟨e, he, heq⟩ := List.mem_map.mp hA3
      refine hk (if e.1 = r.id then (e.1, inc e.2) else e)
        (mem_updateCand_of_mem _ _ _ _ he) ?_
      rw [updateCand_fst_image, heq, hkr]
    have hall : ∀ e ∈ cands₁, e.1 ≠ k := by
      intro e he heq
      refine hk (if e.1 = r.id then (e.1, inc e.2) else e)
        (mem_updateCand_of_mem _ _ _ _ he) ?_
      rw [updateCand_fst_image, heq]
    rw [hbase']
    simp only [if_neg hkne]
    exact hA4 k hall
  obtain ⟨hc1', hc2', hc2b', hc3'⟩ :=
    ih hndr (updateCand r.id inc cands₁) base' hB1 hB2 hB2b hB3
  refine ⟨hc1', ?_, hc2b', ?_⟩
  · intro e he
    obtain ⟨hid', hs', hcount'⟩ := hc2' e he
    refine ⟨hid', hs', ?_⟩
    rw [hcount', hbase']
    by_cases hke : e.1 = r.id
    · simp [hke, hnotin]
    · simp [hke]
  · intro k hk
    have hres := hc3' k hk
    rw [hbase'] at hres
    by_cases hke : k = r.id
    · rw [hke] at hres
      simp at hres
    · simp only [hke, if_false] at hres
      simpa [hke] using hres

theorem innerFold_count (seen : List (Nat × String)) (st title : String) :
    ∀ (l : List RecRecord), (l.map (fun r => r.id)).Nodup →
    ∀ (cands : List (Nat × Cand)) (base : Nat → Nat),
    (cands.map Prod.fst).Nodup →
    (∀ e ∈ cands, e.1 = e.2.data.id ∧
      e.2.score = e.2.data.vote_average.getD 0 ∧ e.2.count = base e.1) →
    (∀ e ∈ cands, 1 ≤ e.2.count) →
    (∀ k, (∀ e ∈ cands, e.1 ≠ k) → base k = 0) →
    (((l.foldl (seedRecStep seen st title) cands).map Prod.fst).Nodup ∧
     (∀ e ∈ l.foldl (seedRecStep seen st title) cands,
        e.1 = e.2.data.id ∧ e.2.score = e.2.data.vote_average.getD 0 ∧
        e.2.count = base e.1 + (if e.1 ∈ seedIds seen st l then 1 else 0)) ∧
     (∀ e ∈ l.foldl (seedRecStep seen st title) cands, 1 ≤ e.2.count) ∧
     (∀ k, (∀ e ∈ l.foldl (seedRecStep seen st title) cands, e.1 ≠ k) →
        base k + (if k ∈ seedIds seen st l then 1 else 0) = 0)) := by
  intro l
  induction l with
  | nil =>
    intro _ cands base h1 h2 h2b h3
    simp only [List.foldl_nil, seedIds, List.filter_nil, List.map_nil,
      List.not_mem_nil, if_false, Nat.add_zero]
    exact ⟨h1, h2, h2b, h3⟩
  | cons r rest ih =>
    intro hnd cands base h1 h2 h2b h3
    simp only [List.map_cons, List.nodup_cons] at hnd
    obtain ⟨hrid, hndr⟩ := hnd
    simp only [List.foldl_cons]
    by_cases hseen : (r.id, st) ∈ seen
    · have hstep : seedRecStep seen st title cands r = cands := by
        unfold seedRecStep
        rw [if_pos hseen]
      have hids : seedIds seen st (r :: rest) = seedIds seen st rest := by
        unfold seedIds
        rw [List.filter_cons_of_neg (by simp [hseen])]
      rw [hstep, hids]
      exact ih hndr cands base h1 h2 h2b h3
    · have hids : seedIds seen st (r :: rest) =
          r.id :: seedIds seen st rest := by
        unfold seedIds
        rw [List.filter_cons_of_pos (by simp [hseen])]
        rfl
      have hnotin : r.id ∉ seedIds seen st rest := fun hmem =>
        hrid (seedIds_sub_ids seen st rest r.id hmem)
      have hstep : seedRecStep seen st title cands r =
          updateCand r.id
            (fun c => { c with count := c.count + 1, sources := c.sources ++ [title] })
            (if (cands.find? (fun e => e.1 == r.id)).isSome then cands
             else cands ++ [(r.id, ⟨injectMediaType r st, 0, [],
               r.vote_average.getD 0⟩)]) := by
        unfold seedRecStep
        rw [if_neg hseen]
      rw [hstep, hids]
      rcases hfound : (cands.find? (fun e => e.1 == r.id)).isSome with _ | _
      · rw [hfound]
        simp only [Bool.false_eq_true, if_false]
        have hnone : cands.find? (fun e => e.1 == r.id) = none := by
          rcases hfx : cands.find? (fun e => e.1 == r.id) with _ | x
          · exact hfx
          · rw [hfx] at hfound
            simp at hfound
        have habsent : ∀ e ∈ cands, e.1 ≠ r.id := by
          intro e he heq
          have := List.find?_eq_none.mp hnone e he
          simp [heq] at this
        have hb0 : base r.id = 0 := h3 r.id habsent
        refine innerFoldFinish seen st title r rest ih hndr hnotin
          (cands ++ [(r.id, ⟨injectMediaType r st, 0, [],
            r.vote_average.getD 0⟩)]) base ?_ ?_ ?_ ?_ ?_
        · rw [List.map_append]
          refine ((List.perm_append_singleton _ _).nodup_iff).mpr ?_
          refine List.nodup_cons.mpr ⟨?_, h1⟩
          intro hmem
          obtain ⟨e, he, heq⟩ := List.mem_map.mp hmem
          exact habsent e he heq
        · intro e he
          rcases List.mem_append.mp he with h | h
          · exact h2 e h
          · rcases List.mem_singleton.mp h with rfl
            exact ⟨by simp [injectMediaType], by simp [injectMediaType],
              by simpa using hb0.symm⟩
        · intro e he
          rcases List.mem_append.mp he with h | h
          · exact Or.inl (h2b e h)
          · rcases List.mem_singleton.mp h with rfl
            exact Or.inr rfl
        · rw [List.map_append]
          exact List.mem_append_right _ (by simp)
        · intro k hk
          exact h3 k (fun e he => hk e (List.mem_append_left _ he))
      · rw [hfound]
        simp only [if_true]
        have hA3 : r.id ∈ cands.map Prod.fst := by
          obtain ⟨x, hx, hpx⟩ := List.find?_isSome.mp hfound
          have hx1 : x.1 = r.id := by simpa using hpx
          exact hx1 ▸ List.mem_map.mpr ⟨x, hx, rfl⟩
        exact innerFoldFinish seen st title r rest ih hndr hnotin
          cands base h1 h2 (fun e he => Or.inl (h2b e he)) hA3 h3

theorem seedPhase_count (seen : List (Nat × String))
    (fetchRec : Nat → String → Option (List RecRecord))
    (hnodup : ∀ tid st l, fetchRec tid st = some l →
      ((analysedRecs l).map (fun r => r.id)).Nodup) :
    ∀ (ss : List WatchHistory) (cands : List (Nat × Cand)) (base : Nat → Nat),
    (cands.map Prod.fst).Nodup →
    (∀ e ∈ cands, e.1 = e.2.data.id ∧
      e.2.score = e.2.data.vote_average.getD 0 ∧ e.2.count = base e.1) →
    (∀ e ∈ cands, 1 ≤ e.2.count) →
    (∀ k, (∀ e ∈ cands, e.1 ≠ k) → base k = 0) →
    (((ss.foldl (seedStep seen fetchRec) cands).map Prod.fst).Nodup ∧
     (∀ e ∈ ss.foldl (seedStep seen fetchRec) cands,
        e.1 = e.2.data.id ∧ e.2.score = e.2.data.vote_average.getD 0 ∧
        e.2.count = base e.1 + suggestionCount seen fetchRec ss e.1) ∧
     (∀ e ∈ ss.foldl (seedStep seen fetchRec) cands, 1 ≤ e.2.count) ∧
     (∀ k, (∀ e ∈ ss.foldl (seedStep seen fetchRec) cands, e.1 ≠ k) →
        base k + suggestionCount seen fetchRec ss k = 0)) := by
  intro ss
  induction ss with
  | nil =>
    intro cands base h1 h2 h2b h3
    simp only [List.foldl_nil, suggestionCount, List.countP_nil, Nat.add_zero]
    exact ⟨h1, h2, h2b, h3⟩
  | cons s rest ih =>
    intro cands base h1 h2 h2b h3
    simp only [List.foldl_cons]
    have hsugg : ∀ k, suggestionCount seen fetchRec (s :: rest) k =
        (if suggests seen fetchRec k s = true then 1 else 0) +
          suggestionCount seen fetchRec rest k := by
      intro k
      unfold suggestionCount
      rw [List.countP_cons]
      omega
    rcases hf : fetchRec s.tmdb_id (seedType s) with _ | results
    · have hstep : seedStep seen fetchRec cands s = cands := by
        unfold seedStep
        rw [hf]
      have hsug0 : ∀ k, suggests seen fetchRec k s = false := by
        intro k
        unfold suggests
        rw [hf]
      rw [hstep]
      obtain ⟨g1, g2, g2b, g3⟩ := ih cands base h1 h2 h2b h3
      refine ⟨g1, fun e he => ?_, g2b, fun k hk => ?_⟩
      · obtain ⟨a, b, c⟩ := g2 e he
        refine ⟨a, b, ?_⟩
        rw [hsugg, hsug0]
        simpa using c
      · rw [hsugg, hsug0]
        simpa using g3 k hk
    · have hstep : seedStep seen fetchRec cands s =
          (analysedRecs results).foldl
            (seedRecStep seen (seedType s) s.title) cands := by
        unfold seedStep
        rw [hf]
      have hsug : ∀ k, (if suggests seen fetchRec k s = true then 1 else 0) =
          (if k ∈ seedIds seen (seedType s) (analysedRecs results)
            then 1 else 0) := by
        intro k
        unfold suggests
        rw [hf]
        by_cases hmem : k ∈ seedIds seen (seedType s) (analysedRecs results) <;>
          simp [hmem]
      rw [hstep]
      obtain ⟨g1, g2, g2b, g3⟩ := innerFold_count seen (seedType s) s.title
        (analysedRecs results) (hnodup _ _ _ hf) cands base h1 h2 h2b h3
      obtain ⟨f1, f2, f2b, f3⟩ := ih
        ((analysedRecs results).foldl
          (seedRecStep seen (seedType s) s.title) cands)
        (fun k => base k + (if k ∈ seedIds seen (seedType s)
          (analysedRecs results) then 1 else 0))
        g1 g2 g2b g3
      refine ⟨f1, fun e he => ?_, f2b, fun k hk => ?_⟩
      · obtain ⟨a, b, c⟩ := f2 e he
        refine ⟨a, b, ?_⟩
        rw [c, hsugg, hsug, Nat.add_assoc]
      · have hz := f3 k hk
        rw [hsugg, hsug, ← Nat.add_assoc]
        exact hz

/-- The shape of a trending-fill candidate entry: keyed by its record's id,
count 1, source Global Trends, base score vote_average * 1.1. -/
def TrendEntry (e : Nat × Cand) : Prop :=
  e.1 = e.2.data.id ∧ e.2.count = 1 ∧ e.2.sources = ["Global Trends"] ∧
  e.2.score = e.2.data.vote_average.getD 0 * (11 / 10)

theorem trendingFold_entry (seen : List (Nat × String))
    (P : Nat × Cand → Prop) :
    ∀ (ts : List RecRecord) (cands : List (Nat × Cand)),
    (∀ e ∈ cands, P e ∨ TrendEntry e) →
    ∀ e ∈ ts.foldl (trendingStep seen) cands, P e ∨ TrendEntry e := by
  intro ts
  induction ts with
  | nil => exact fun cands h => h
  | cons t rest ih =>
    intro cands h
    simp only [List.foldl_cons]
    refine ih _ ?_
    intro e he
    unfold trendingStep at he
    split_ifs at he with hg
    · rcases List.mem_append.mp he with hh | hh
      · exact h e hh
      · rcases List.mem_singleton.mp hh with rfl
        exact Or.inr ⟨rfl, rfl, rfl, rfl⟩
    · exact h e he

theorem trendingFill_entry (seen : List (Nat × String))
    (P : Nat × Cand → Prop) (trending : Option (List RecRecord))
    (cands : List (Nat × Cand))
    (h : ∀ e ∈ cands, P e ∨ TrendEntry e) :
    ∀ e ∈ trendingFill seen trending cands, P e ∨ TrendEntry e := by
  unfold trendingFill
  split_ifs
  · rcases trending with _ | ts
    · exact h
    · exact trendingFold_entry seen P ts cands h
  · exact h

/-- C6: the recommendations endpoint returns at most 18 items, sorted in
descending match_score order; every returned item either is a seed-derived
candidate scored `vote_average * (1 + (k - 1) * 0.5)` where `k ≥ 1` is the
number of the user's (deduplicated) seeds that suggested it, or is a
trending-fill candidate, marked by the Global Trends source, scored
`vote_average * 1.1`. -/
theorem get_recommendations_scoring (history seeds : List WatchHistory)
    (fetchRec : Nat → String → Option (List RecRecord))
    (trending : Option (List RecRecord))
    (hnodup : ∀ tid st l, fetchRec tid st = some l →
      ((analysedRecs l).map (fun r => r.id)).Nodup) :
    (get_recommendations history seeds fetchRec trending).length ≤ 18 ∧
    (get_recommendations history seeds fetchRec trending).Pairwise
      (fun a b => b.match_score ≤ a.match_score) ∧
    (∀ r ∈ get_recommendations history seeds fetchRec trending,
      (r.match_score = r.data.vote_average.getD 0 *
          (1 + ((suggestionCount (seenLookup history) fetchRec
            (uniqueSeeds seeds) r.data.id : ℚ) - 1) * (1 / 2)) ∧
        1 ≤ suggestionCount (seenLookup history) fetchRec
          (uniqueSeeds seeds) r.data.id) ∨
      (r.sources = ["Global Trends"] ∧
        r.match_score = r.data.vote_average.getD 0 * (11 / 10))) := by
  refine ⟨?_, ?_, ?_⟩
  · unfold get_recommendations
    rw [List.length_take]
    exact min_le_left _ _
  · unfold get_recommendations
    have hp := pairwise_sortDescBy (fun r : RecOut => r.match_score)
      ((trendingFill (seenLookup history) trending
        ((uniqueSeeds seeds).foldl
          (seedStep (seenLookup history) fetchRec) [])).map formatCand)
    exact List.Pairwise.sublist (List.take_sublist _ _) hp
  · intro r hr
    unfold get_recommendations at hr
    have hr' : r ∈ (trendingFill (seenLookup history) trending
        ((uniqueSeeds seeds).foldl
          (seedStep (seenLookup history) fetchRec) [])).map formatCand :=
      (perm_sortDescBy (fun r => r.match_score) _).mem_iff.mp
        (List.mem_of_mem_take hr)
    obtain ⟨e, he, rfl⟩ := List.mem_map.mp hr'
    obtain ⟨g1, g2, g2b, g3⟩ := seedPhase_count (seenLookup history) fetchRec
      hnodup (uniqueSeeds seeds) [] (fun _ => 0) (by simp)
      (by intro e h; simp at h) (by intro e h; simp at h) (fun k _ => rfl)
    have hseedP : ∀ e ∈ (uniqueSeeds seeds).foldl
        (seedStep (seenLookup history) fetchRec) [],
        (e.1 = e.2.data.id ∧ e.2.score = e.2.data.vote_average.getD 0 ∧
          e.2.count = suggestionCount (seenLookup history) fetchRec
            (uniqueSeeds seeds) e.1 ∧ 1 ≤ e.2.count) ∨ TrendEntry e := by
      intro e he
      obtain ⟨a, b, c⟩ := g2 e he
      exact Or.inl ⟨a, b, by simpa using c, g2b e he⟩
    have hent := trendingFill_entry (seenLookup history)
      (fun e => e.1 = e.2.data.id ∧
        e.2.score = e.2.data.vote_average.getD 0 ∧
        e.2.count = suggestionCount (seenLookup history) fetchRec
          (uniqueSeeds seeds) e.1 ∧ 1 ≤ e.2.count)
      trending _ hseedP e he
    rcases hent with ⟨hid, hs, hc, hc1⟩ | ⟨hid, hc, hsrc, hs⟩
    · left
      constructor
      · show e.2.score * (1 + ((e.2.count : ℚ) - 1) * (1 / 2)) = _
        rw [hs, hc, hid]
        rfl
      · rw [hc, hid] at hc1
        exact hc1
    · right
      refine ⟨hsrc, ?_⟩
      show e.2.score * (1 + ((e.2.count : ℚ) - 1) * (1 / 2)) = _
      rw [hs, hc]
      show _ = e.2.data.vote_average.getD 0 * (11 / 10)
      norm_num

/-- Witness for C6 at concrete inputs: a failing recommendations upstream and
a one-item trending feed yield at most 18 items in descending score order. -/
theorem get_recommendations_scoring_witness :
    (get_recommendations
        [⟨1, 7, "X", some "tv", "watched", none, some 1, [], none, 1⟩]
        [⟨1, 7, "X", some "tv", "watched", none, some 1, [], none, 1⟩]
        (fun _ _ => none)
        (some [⟨9, some 7, some "movie", true, false⟩])).length ≤ 18 ∧
    (get_recommendations
        [⟨1, 7, "X", some "tv", "watched", none, some 1, [], none, 1⟩]
        [⟨1, 7, "X", some "tv", "watched", none, some 1, [], none, 1⟩]
        (fun _ _ => none)
        (some [⟨9, some 7, some "movie", true, false⟩])).Pairwise
      (fun a b => b.match_score ≤ a.match_score) :=
  ⟨(get_recommendations_scoring
      [⟨1, 7, "X", some "tv", "watched", none, some 1, [], none, 1⟩]
      [⟨1, 7, "X", some "tv", "watched", none, some 1, [], none, 1⟩]
      (fun _ _ => none) (some [⟨9, some 7, some "movie", true, false⟩])
      (by intro tid st l h; cases h)).1,
   (get_recommendations_scoring
      [⟨1, 7, "X", some "tv", "watched", none, some 1, [], none, 1⟩]
      [⟨1, 7, "X", some "tv", "watched", none, some 1, [], none, 1⟩]
      (fun _ _ => none) (some [⟨9, some 7, some "movie", true, false⟩])
      (by intro tid st l h; cases h)).2.1⟩
